import Mathlib

/-!
# Ginkgo Talk: session, pairing and dispatch engine

A shallow embedding of `src/server.go` and `src/ai.go`.

Modelling conventions.

* A Go `string` is a Lean `String`.
* A `time.Time` is a natural number of nanoseconds elapsed since the zero
  `time.Time`; the zero time is `0`.  Clock readings (`time.Now()`) are passed
  to every function that reads the clock.  `Time.Add` is unbounded here (the
  saturation of Go's 64-bit seconds counter is out of reach of 24 hours).
* An `http.Request` is the record of the parts the handlers read.
* A Go `error` is its message.
* Calls that leave the process (the websocket upgrade, the HTTP round trip of
  the transform service, the operating system's input queue) are supplied by an
  environment record; every call is recorded in the world's logs.
* The enumeration of network interfaces is an input of `getLanIP`; a `net.IP`
  is its byte slice.
* The decoded body of a configuration request is an input of `handleConfig`,
  and the `Config` it passes to `SaveConfig` is part of its result.
* The certificate and key files are a record of what they decode to, and the
  `x509` and `ecdsa` calls are supplied by an environment record; the DER
  bytes of a certificate are represented by the fields they encode.
-/

namespace GinkgoTalk

/-! ## Library functions used by the source -/

/-- Code points for which Go's `unicode.IsSpace` holds. -/
def isSpace (c : Char) : Bool :=
  let n := c.toNat
  n == 0x09 || n == 0x0A || n == 0x0B || n == 0x0C || n == 0x0D || n == 0x20 ||
  n == 0x85 || n == 0xA0 || n == 0x1680 || (0x2000 ≤ n && n ≤ 0x200A) ||
  n == 0x2028 || n == 0x2029 || n == 0x202F || n == 0x205F || n == 0x3000

/-- Go's `strings.TrimSpace`: drops leading and trailing white space. -/
def TrimSpace (s : String) : String :=
  ⟨((s.data.dropWhile isSpace).reverse.dropWhile isSpace).reverse⟩

/-- UTF-8 encoding of one code point, as Go stores it in a `string`. -/
def utf8EncodeChar (c : Char) : List Nat :=
  let n := c.toNat
  if n < 0x80 then [n]
  else if n < 0x800 then [0xC0 + n / 64, 0x80 + n % 64]
  else if n < 0x10000 then [0xE0 + n / 4096, 0x80 + n / 64 % 64, 0x80 + n % 64]
  else [0xF0 + n / 262144, 0x80 + n / 4096 % 64, 0x80 + n / 64 % 64, 0x80 + n % 64]

/-- UTF-8 bytes of a sequence of code points. -/
def bytesOf : List Char → List Nat
  | [] => []
  | c :: cs => utf8EncodeChar c ++ bytesOf cs

/-- The conversion `[]byte(s)`: the bytes of the string. -/
def bytes (s : String) : List Nat :=
  bytesOf s.data

/-- Go's `subtle.ConstantTimeByteEq(x, y uint8) int`, that is
`int((uint32(x^y) - 1) >> 31)` in 32-bit unsigned arithmetic. -/
def ConstantTimeByteEq (x y : Nat) : Nat :=
  (((x ^^^ y) % 256 + (2 ^ 32 - 1)) % 2 ^ 32) / 2 ^ 31

/-- The accumulation loop of `subtle.ConstantTimeCompare` on a `byte`
accumulator: `v |= x[i] ^ y[i]`. -/
def xorAccumulate : Nat → List Nat → List Nat → Nat
  | v, a :: x, b :: y => xorAccumulate ((v ||| (a ^^^ b)) % 256) x y
  | v, _, _ => v

/-- Go's `subtle.ConstantTimeCompare`: `0` on a length mismatch, otherwise
`ConstantTimeByteEq` of the accumulated difference and `0`. -/
def ConstantTimeCompare (x y : List Nat) : Nat :=
  if x.length ≠ y.length then 0
  else ConstantTimeByteEq (xorAccumulate 0 x y) 0

/-! ## Time -/

/-- Nanoseconds since the zero `time.Time`. -/
abbrev Time := Nat

/-- The zero value `time.Time{}`. -/
def zeroTime : Time := 0

/-- One second, in nanoseconds. -/
def second : Nat := 1000000000

/-- One hour, in nanoseconds. -/
def hour : Nat := 3600 * second

/-- The constant `pairSessionTTL = 24 * time.Hour`. -/
def pairSessionTTL : Nat := 24 * hour

/-- Go's `Time.IsZero`. -/
def IsZero (t : Time) : Bool := t == zeroTime

/-- Go's `t.After(u)`: `t` is strictly later than `u`. -/
def After (t u : Time) : Bool := decide (u < t)

/-- Go's `t.Add(d)`. -/
def Add (t : Time) (d : Nat) : Time := t + d

/-! ## Data model -/

/-- The type `AIMode` of `ai.go`. -/
abbrev AIMode := String

def ModeRaw : AIMode := "raw"
def ModeTidy : AIMode := "tidy"
def ModeFormal : AIMode := "formal"
def ModeTranslate : AIMode := "translate"

/-- The struct `AIProcessor` (the HTTP client is part of the environment). -/
structure AIProcessor where
  apiKey : String
  baseURL : String
  model : String
deriving DecidableEq, Repr

/-- A websocket connection handle. -/
abbrev Conn := Nat

/-- The struct `Server`; `conn = none` is the nil connection. -/
structure Server where
  conn : Option Conn
  clientAddr : String
  pairedDeviceID : String
  pairedUntil : Time
  startedAt : Time
  addr : String
  lanIPOverride : String
  authToken : String
  pairCode : String
  ai : AIProcessor
  hasSentText : Bool
deriving DecidableEq, Repr

/-- The struct `Message`. -/
structure Message where
  Type_ : String
  Text : String
  Mode : String
deriving DecidableEq, Repr

/-- The body struct that `handlePair` decodes. -/
structure PairBody where
  Code : String
  DeviceID : String
deriving DecidableEq, Repr

/-- The parts of an `http.Request` the handlers read.  `pairBody` is the result
of decoding the request body into the struct of `handlePair`; `none` is a
decoding error. -/
structure Request where
  Method : String
  RemoteAddr : String
  queryToken : String
  headerToken : String
  queryDeviceID : String
  headerDeviceID : String
  pairBody : Option PairBody
deriving DecidableEq, Repr

/-- A JSON value written into a response body.  `rfc3339 t` stands for the
string `t.Format(time.RFC3339)`. -/
inductive JSON where
  | str (s : String)
  | bool (b : Bool)
  | rfc3339 (t : Time)
deriving DecidableEq, Repr

/-- What a handler wrote to its `http.ResponseWriter`: the status code (200
when `WriteHeader` is not called) and the fields of the JSON body. -/
structure Response where
  status : Nat
  body : List (String × JSON)
deriving DecidableEq, Repr

def StatusOK : Nat := 200
def StatusBadRequest : Nat := 400
def StatusUnauthorized : Nat := 401
def StatusForbidden : Nat := 403
def StatusMethodNotAllowed : Nat := 405
def MethodGet : String := "GET"
def MethodPost : String := "POST"

/-- The error body `map[string]string{"error": msg}` sent with `code`. -/
def errorResponse (code : Nat) (msg : String) : Response :=
  ⟨code, [("error", JSON.str msg)]⟩

/-! ## Session authority (`server.go`, lines 545 to 661) -/

/-- The method `Server.isTokenAuthorized`. -/
def isTokenAuthorized (s : Server) (r : Request) : Bool :=
  let token := TrimSpace r.queryToken
  let token := if token = "" then TrimSpace r.headerToken else token
  if token = "" ∨ s.authToken = "" then false
  else ConstantTimeCompare (bytes token) (bytes s.authToken) == 1

/-- The token `isTokenAuthorized` compares (lines 618 to 621): the trimmed
`token` query parameter, or the trimmed `X-GTalk-Token` header when that is
empty. -/
def presentedToken (r : Request) : String :=
  let token := TrimSpace r.queryToken
  if token = "" then TrimSpace r.headerToken else token

/-- The token string as the client presented it: the `token` query parameter,
or the `X-GTalk-Token` header when that parameter is empty. -/
def rawToken (r : Request) : String :=
  if r.queryToken = "" then r.headerToken else r.queryToken

/-- The function `deviceIDFromRequest`. -/
def deviceIDFromRequest (r : Request) : String :=
  let deviceID := TrimSpace r.queryDeviceID
  if deviceID = "" then TrimSpace r.headerDeviceID else deviceID

/-- The method `Server.pairingState`, reading the clock as `now`; returns the
server after the call together with the two results. -/
def pairingState (s : Server) (deviceID : String) (now : Time) : Server × Bool × Time :=
  if deviceID = "" then (s, false, zeroTime)
  else if s.pairedDeviceID = "" ∨ IsZero s.pairedUntil = true then (s, false, zeroTime)
  else if After now s.pairedUntil = true then
    ({ s with pairedDeviceID := "", pairedUntil := zeroTime }, false, zeroTime)
  else if ConstantTimeCompare (bytes deviceID) (bytes s.pairedDeviceID) ≠ 1 then
    (s, false, zeroTime)
  else (s, true, s.pairedUntil)

/-- The method `Server.isClientPaired`. -/
def isClientPaired (s : Server) (r : Request) (now : Time) : Server × Bool :=
  let deviceID := deviceIDFromRequest r
  let res := pairingState s deviceID now
  (res.1, res.2.1)

/-- The device id a pair request is resolved to: query or header first, then
the `deviceId` of the body (`handlePair`, lines 549 and 585 to 587). -/
def pairDeviceID (r : Request) (body : PairBody) : String :=
  let deviceID := deviceIDFromRequest r
  if deviceID = "" then TrimSpace body.DeviceID else deviceID

/-- The method `Server.handlePair`, reading the clock as `now`. -/
def handlePair (s : Server) (r : Request) (now : Time) : Server × Response :=
  let authorized := isTokenAuthorized s r
  let deviceID := deviceIDFromRequest r
  if r.Method = MethodGet then
    if !authorized then (s, errorResponse StatusUnauthorized "unauthorized")
    else
      let res := pairingState s deviceID now
      let paired := res.2.1
      let pairExpiresAt := res.2.2
      let pairExpiresText :=
        if !IsZero pairExpiresAt then JSON.rfc3339 pairExpiresAt else JSON.str ""
      (res.1, ⟨StatusOK, [("paired", JSON.bool paired), ("pairRequired", JSON.bool !paired),
        ("pairExpiresAt", pairExpiresText)]⟩)
  else if r.Method ≠ MethodPost then
    (s, errorResponse StatusMethodNotAllowed "method not allowed")
  else
    match r.pairBody with
    | none => (s, errorResponse StatusBadRequest "invalid request")
    | some body =>
      let deviceID := if deviceID = "" then TrimSpace body.DeviceID else deviceID
      if deviceID = "" then (s, errorResponse StatusBadRequest "missing device id")
      else if ConstantTimeCompare (bytes (TrimSpace body.Code)) (bytes s.pairCode) ≠ 1 then
        (s, errorResponse StatusForbidden "invalid pair code")
      else
        let s1 := { s with pairedDeviceID := deviceID, pairedUntil := Add now pairSessionTTL }
        let pairedUntil := s1.pairedUntil
        (s1, ⟨StatusOK, [("ok", JSON.bool true), ("paired", JSON.bool true),
          ("pairRequired", JSON.bool false), ("pairExpiresAt", JSON.rfc3339 pairedUntil),
          ("token", JSON.str s1.authToken)]⟩)

/-! ## Transform service (`ai.go`) -/

/-- The text before `%s` in the `tidy` template of `buildPrompt`. -/
def tidyPrompt : String :=
  "你是一个语音转文字的文本整理助手。请对以下语音识别的原始文本进行整理：\n\n规则：\n1. 去除重复的词语（如说了两遍的词）\n2. 去除口头禅和语气词（如\"那个\"、\"就是\"、\"嗯\"、\"啊\"、\"然后\"等）\n3. 补充正确的标点符号\n4. 保持原始含义，不添加、不删减实质内容\n5. 只输出整理后的文本，不要解释\n\n原始文本："

/-- The text before `%s` in the `formal` template of `buildPrompt`. -/
def formalPrompt : String :=
  "你是一个语音转文字的写作助手。请将以下口语化的语音识别文本转换为正式书面语：\n\n规则：\n1. 去除所有重复词语和口头禅\n2. 将口语表达转换为书面语\n3. 优化语序，使表达更清晰流畅\n4. 补充正确的标点符号\n5. 保持原始含义不变，不添加新内容\n6. 只输出修饰后的文本，不要解释\n\n原始文本："

/-- The text before `%s` in the `translate` template of `buildPrompt`. -/
def translatePrompt : String :=
  "你是一个翻译助手。请判断以下文本的语言：\n- 如果是中文，翻译成英文\n- 如果是英文，翻译成中文\n- 如果是其他语言，翻译成中文\n\n规则：\n1. 先去除口头禅和重复词语，再翻译\n2. 翻译要自然流畅\n3. 只输出翻译结果，不要解释\n\n原始文本："

/-- The function `buildPrompt`: the template of the mode with the text
substituted for its final `%s`; any other mode gives the text itself. -/
def buildPrompt (text : String) (mode : AIMode) : String :=
  if mode = ModeTidy then tidyPrompt ++ text
  else if mode = ModeFormal then formalPrompt ++ text
  else if mode = ModeTranslate then translatePrompt ++ text
  else text

/-- The method `AIProcessor.IsAvailable`. -/
def IsAvailable (ai : AIProcessor) : Bool :=
  ai.apiKey != ""

/-- The method `AIProcessor.SetAPIKey`. -/
def SetAPIKey (ai : AIProcessor) (key : String) : AIProcessor :=
  { ai with apiKey := TrimSpace key }

/-! ## Environment and world -/

/-- The operations of the input injector (`keyboard.go`). -/
inductive InjectorOp where
  | TypeText (text : String)
  | PressEnter
  | SelectAllAndDelete
  | PressShiftEnter
  | PressCtrlZ
  | PressCtrlV
  | PressTab
  | PressEscape
deriving DecidableEq, Repr

/-- What lies outside the process.  `callAPI calls ai prompt` is the pair
`(string, error)` that `AIProcessor.callAPI` returns for the prompt after the
earlier calls `calls`; `inject ops op` is the error of injector operation `op`
after the earlier operations `ops`.  An error is `none` for `nil`, otherwise
its message. -/
structure Env where
  callAPI : List String → AIProcessor → String → String × Option String
  inject : List InjectorOp → InjectorOp → Option String

/-- An outbound JSON object: the fields passed to `conn.WriteJSON`. -/
abbrev Event := List (String × String)

/-- The server together with the logs of what it did to the outside:
connections closed, injector operations invoked, prompts sent to the transform
service, and objects written to connections, each in order. -/
structure World where
  server : Server
  closed : List Conn
  injected : List InjectorOp
  apiCalls : List String
  sent : List (Conn × Event)
deriving DecidableEq, Repr

/-- One call of `conn.WriteJSON`. -/
def WriteJSON (w : World) (conn : Conn) (e : Event) : World :=
  { w with sent := w.sent ++ [(conn, e)] }

/-- One call of an injector operation; returns its error. -/
def inject (env : Env) (w : World) (op : InjectorOp) : World × Option String :=
  ({ w with injected := w.injected ++ [op] }, env.inject w.injected op)

/-- The method `AIProcessor.Process` on the server's processor; returns the
pair `(string, error)`. -/
def Process (env : Env) (w : World) (text : String) (mode : AIMode) :
    World × String × Option String :=
  if !IsAvailable w.server.ai then
    (w, text, some "AI not configured: set DEEPSEEK_API_KEY environment variable")
  else if mode = ModeRaw ∨ TrimSpace text = "" then (w, text, none)
  else
    let prompt := buildPrompt text mode
    let res := env.callAPI w.apiCalls w.server.ai prompt
    ({ w with apiCalls := w.apiCalls ++ [prompt] }, res.1, res.2)

/-! ## Protocol dispatcher (`Server.handleWebSocket`, lines 199 to 384) -/

/-- The AI branch of a text message (lines 272 to 294). -/
def aiWorkflow (env : Env) (w : World) (conn : Conn) (text : String) (mode : AIMode) : World :=
  let w1 := WriteJSON w conn
    [("type", "processing"), ("text", text), ("status", "ai_processing")]
  let res := Process env w1 text mode
  let processed := res.2.1
  match res.2.2 with
  | some err => WriteJSON res.1 conn [("type", "ai_error"), ("error", err)]
  | none =>
    WriteJSON res.1 conn
      [("type", "ai_preview"), ("text", processed), ("original", text), ("mode", mode)]

/-- The raw branch of a text message (lines 296 to 320): type, then submit. -/
def directCommit (env : Env) (w : World) (conn : Conn) (outputText text : String)
    (mode : AIMode) : World :=
  let r1 := inject env w (InjectorOp.TypeText outputText)
  match r1.2 with
  | some err => WriteJSON r1.1 conn [("type", "error"), ("error", err)]
  | none =>
    let r2 := inject env r1.1 InjectorOp.PressEnter
    match r2.2 with
    | some err => WriteJSON r2.1 conn [("type", "error"), ("error", err)]
    | none =>
      let w3 := { r2.1 with server := { r2.1.server with hasSentText := false } }
      WriteJSON w3 conn
        [("type", "ack"), ("text", outputText), ("original", text), ("mode", mode),
          ("status", "sent")]

/-- The shape shared by the seven command cases (lines 327 to 378): one
injector operation, then `error` or `ack`; `reset` tells whether the case
clears `hasSentText` on success. -/
def runCommand (env : Env) (w : World) (conn : Conn) (op : InjectorOp) (status : String)
    (reset : Bool) : World :=
  let r1 := inject env w op
  match r1.2 with
  | some err => WriteJSON r1.1 conn [("type", "error"), ("error", err)]
  | none =>
    let w2 :=
      if reset then { r1.1 with server := { r1.1.server with hasSentText := false } }
      else r1.1
    WriteJSON w2 conn [("type", "ack"), ("status", status)]

/-- The inner `switch msg.Text` of the `command` case (lines 326 to 381). -/
def command (env : Env) (w : World) (conn : Conn) (text : String) : World :=
  if text = "clear" then runCommand env w conn InjectorOp.SelectAllAndDelete "cleared" true
  else if text = "enter" then runCommand env w conn InjectorOp.PressEnter "enter" true
  else if text = "shift_enter" then
    runCommand env w conn InjectorOp.PressShiftEnter "shift_enter" false
  else if text = "ctrl_z" then runCommand env w conn InjectorOp.PressCtrlZ "ctrl_z" false
  else if text = "ctrl_v" then runCommand env w conn InjectorOp.PressCtrlV "ctrl_v" false
  else if text = "tab" then runCommand env w conn InjectorOp.PressTab "tab" false
  else if text = "escape" then runCommand env w conn InjectorOp.PressEscape "escape" false
  else w

/-- The mode of a text message: `AIMode(msg.Mode)`, or `ModeRaw` when that is
empty (lines 265 to 268). -/
def effectiveMode (msg : Message) : AIMode :=
  if msg.Mode = "" then ModeRaw else msg.Mode

/-- The `switch msg.Type` on one decoded message (lines 261 to 382). -/
def dispatch (env : Env) (w : World) (conn : Conn) (msg : Message) : World :=
  if msg.Type_ = "text" then
    if msg.Text ≠ "" then
      let outputText := msg.Text
      let mode := effectiveMode msg
      if mode ≠ ModeRaw ∧ IsAvailable w.server.ai = true then
        aiWorkflow env w conn msg.Text mode
      else directCommit env w conn outputText msg.Text mode
    else w
  else if msg.Type_ = "command" then command env w conn msg.Text
  else w

/-- The read loop (lines 246 to 383) over the frames the connection delivers
before `ReadMessage` fails; a frame is the result of `json.Unmarshal` on it,
`none` for invalid JSON. -/
def readLoop (env : Env) (conn : Conn) : World → List (Option Message) → World
  | w, [] => w
  | w, none :: rest => readLoop env conn w rest
  | w, some msg :: rest => readLoop env conn (dispatch env w conn msg) rest

/-- Storing the connection (lines 224 to 230). -/
def acceptConn (w : World) (conn : Conn) (r : Request) : World :=
  let w1 :=
    match w.server.conn with
    | some old => { w with closed := w.closed ++ [old] }
    | none => w
  { w1 with server := { w1.server with conn := some conn, clientAddr := r.RemoteAddr } }

/-- The deferred teardown (lines 235 to 244). -/
def releaseConn (w : World) (conn : Conn) : World :=
  let w1 :=
    if w.server.conn = some conn then
      { w with server := { w.server with conn := none, clientAddr := "" } }
    else w
  { w1 with closed := w1.closed ++ [conn] }

/-- How a call of `handleWebSocket` ended: refused by `http.Error` with a status
code and text, failed in `Upgrade`, or served on a connection until its read
loop ended. -/
inductive WsResult where
  | refused (code : Nat) (msg : String)
  | upgradeFailed
  | served (conn : Conn)
deriving DecidableEq, Repr

/-- The method `Server.handleWebSocket`, run without interleaving of other
handlers.  `upgrade` is the result of `s.upgrader.Upgrade` (`none` for an
error) and `frames` what the connection then delivers. -/
def handleWebSocket (env : Env) (w : World) (r : Request) (now : Time)
    (upgrade : Option Conn) (frames : List (Option Message)) : World × WsResult :=
  if !isTokenAuthorized w.server r then (w, WsResult.refused StatusUnauthorized "unauthorized")
  else
    let p := isClientPaired w.server r now
    let w1 := { w with server := p.1 }
    if !p.2 then (w1, WsResult.refused StatusForbidden "pair required")
    else
      match upgrade with
      | none => (w1, WsResult.upgradeFailed)
      | some conn =>
        let w2 := acceptConn w1 conn r
        let w3 := readLoop env conn w2 frames
        (releaseConn w3 conn, WsResult.served conn)

/-! ## Address resolver (`server.go`, lines 663 to 753) -/

/-- Library functions of `strings` and `net` that are taken as given:
`lowerRune` is `unicode.ToLower` on code points beyond ASCII, `ipv6Text` is the
text form of a 16-byte address that is not an IPv4 address, and `ParseIP` is
`net.ParseIP` (the empty slice for `nil`). -/
structure Lib where
  lowerRune : Char → Char
  ipv6Text : List Nat → String
  ParseIP : String → List Nat

/-- A `net.IP`: a byte slice, empty for `nil`. -/
abbrev IP := List Nat

/-- Go's `strings.ToLower`, one code point at a time. -/
def ToLower (lib : Lib) (s : String) : String :=
  ⟨s.data.map fun c =>
    if c.toNat < 0x80 then
      (if 0x41 ≤ c.toNat ∧ c.toNat ≤ 0x5A then Char.ofNat (c.toNat + 0x20) else c)
    else lib.lowerRune c⟩

/-- Whether `sub` occurs in `l` at some position. -/
def containsBytes : List Nat → List Nat → Bool
  | [], sub => sub.isEmpty
  | a :: l, sub => sub.isPrefixOf (a :: l) || containsBytes l sub

/-- Go's `strings.Contains`, on the bytes of the two strings. -/
def Contains (s substr : String) : Bool :=
  containsBytes (bytes s) (bytes substr)

/-- The list `virtualKeywords` of `classifyInterface`. -/
def virtualKeywords : List String :=
  ["vmware", "vmnet", "virtualbox", "vbox", "hyper-v", "vethernet", "docker", "veth", "br-",
    "vpn", "starvpn", "tap", "tun", "wireguard", "wg", "蓝牙", "bluetooth", "loopback",
    "nodebabylink"]

/-- The list `physicalKeywords` of `classifyInterface`. -/
def physicalKeywords : List String :=
  ["wlan", "wi-fi", "wifi", "无线", "以太网", "ethernet", "eth", "en0", "en1"]

/-- The function `classifyInterface`: the two keyword loops in order, each
returning at the first keyword the name contains. -/
def classifyInterface (name : String) : Nat :=
  if virtualKeywords.any (fun kw => Contains name kw) then 90
  else if physicalKeywords.any (fun kw => Contains name kw) then 10
  else 50

def FlagUp : Nat := 1
def FlagBroadcast : Nat := 2
def FlagLoopback : Nat := 4
def FlagPointToPoint : Nat := 8
def FlagMulticast : Nat := 16
def FlagRunning : Nat := 32

/-- Go's `IP.To4`: the 4-byte form of an IPv4 address, empty for `nil`. -/
def To4 (ip : IP) : IP :=
  if ip.length = 4 then ip
  else if ip.length = 16 ∧ ip.take 12 = [0, 0, 0, 0, 0, 0, 0, 0, 0, 0, 0xff, 0xff] then
    ip.drop 12
  else []

/-- Go's `IP.IsLoopback`. -/
def IsLoopback (ip : IP) : Bool :=
  if To4 ip ≠ [] then (To4 ip).getD 0 0 == 127
  else ip == [0, 0, 0, 0, 0, 0, 0, 0, 0, 0, 0, 0, 0, 0, 0, 1]

/-- Two lower-case hexadecimal digits of a byte. -/
def hexByte (b : Nat) : String :=
  ⟨[(Nat.toDigits 16 (b / 16 % 16)).headD '0', (Nat.toDigits 16 (b % 16)).headD '0']⟩

/-- Go's `IP.String`. -/
def IPString (lib : Lib) (ip : IP) : String :=
  if ip.length = 0 then "<nil>"
  else if (To4 ip).length = 4 then
    Nat.repr ((To4 ip).getD 0 0) ++ "." ++ Nat.repr ((To4 ip).getD 1 0) ++ "." ++
      Nat.repr ((To4 ip).getD 2 0) ++ "." ++ Nat.repr ((To4 ip).getD 3 0)
  else if ip.length ≠ 16 then "?" ++ String.join (ip.map hexByte)
  else lib.ipv6Text ip

/-- What `iface.Addrs()` yields: a `*net.IPNet` with its address, or an address
of another type. -/
inductive Addr where
  | IPNet (ip : IP)
  | other
deriving DecidableEq, Repr

/-- A `net.Interface` with the result of its `Addrs()` (`none` for an error). -/
structure Interface where
  Name : String
  Flags : Nat
  addrs : Option (List Addr)
deriving DecidableEq, Repr

/-- The struct `candidate` of `getLanIP`. -/
structure candidate where
  ip : String
  priority : Nat
deriving DecidableEq, Repr

/-- The inner loop of `getLanIP` (lines 692 to 703): the candidates of one
interface, in the order of its addresses. -/
def addrCandidates (lib : Lib) (prio : Nat) : List Addr → List candidate
  | [] => []
  | Addr.other :: rest => addrCandidates lib prio rest
  | Addr.IPNet ip :: rest =>
    if To4 ip = [] ∨ IsLoopback ip = true then addrCandidates lib prio rest
    else if (To4 ip).getD 0 0 = 169 ∧ (To4 ip).getD 1 0 = 254 then addrCandidates lib prio rest
    else ⟨IPString lib (To4 ip), prio⟩ :: addrCandidates lib prio rest

/-- The outer loop of `getLanIP` (lines 678 to 704): the slice `candidates`
after the loop. -/
def ifaceCandidates (lib : Lib) : List Interface → List candidate
  | [] => []
  | iface :: rest =>
    if iface.Flags &&& FlagUp = 0 ∨ iface.Flags &&& FlagLoopback ≠ 0 then
      ifaceCandidates lib rest
    else
      match iface.addrs with
      | none => ifaceCandidates lib rest
      | some addrs =>
        addrCandidates lib (classifyInterface (ToLower lib iface.Name)) addrs ++
          ifaceCandidates lib rest

/-- The selection loop of `getLanIP` (lines 711 to 716). -/
def pickBest : candidate → List candidate → candidate
  | best, [] => best
  | best, c :: cs => pickBest (if c.priority < best.priority then c else best) cs

/-- The function `getLanIP` on the result of `net.Interfaces()` (`none` for an
error). -/
def getLanIP (lib : Lib) (ifaces : Option (List Interface)) : String :=
  match ifaces with
  | none => "localhost"
  | some l =>
    match ifaceCandidates lib l with
    | [] => "localhost"
    | c :: cs => (pickBest c cs).ip

/-! ## Identity manager (`generateSelfSignedCert`, lines 755 to 834) -/

/-- An ECDSA key pair, by a number that stands for both halves. -/
abbrev Key := Nat

/-- The fields of an `x509.Certificate` that `generateSelfSignedCert` sets or
reads. -/
structure X509Cert where
  SerialNumber : Nat
  Organization : List String
  CommonName : String
  NotBefore : Time
  NotAfter : Time
  KeyUsage : Nat
  ExtKeyUsage : List Nat
  BasicConstraintsValid : Bool
  IPAddresses : List IP
  DNSNames : List String
deriving DecidableEq, Repr

/-- The DER bytes of a certificate, represented by what they encode: the
certificate fields and the subject public key. -/
structure DER where
  cert : X509Cert
  PublicKey : Key
deriving DecidableEq, Repr

/-- A `tls.Certificate`: the chain of DER certificates and the private key
(`none` for the zero value). -/
structure TLSCertificate where
  Certificate : List DER
  PrivateKey : Option Key
deriving DecidableEq, Repr

/-- The two files beside the executable, `cert.pem` and `key.pem`, each by the
content it decodes to; `none` is a file that is missing or does not decode. -/
structure Disk where
  certFile : Option DER
  keyFile : Option Key
deriving DecidableEq, Repr

/-- What `generateSelfSignedCert` takes from outside: the `net` library, the
result of `x509.ParseCertificate` on a DER certificate, of `ecdsa.GenerateKey`,
of `x509.CreateCertificate` on a template and key, of
`x509.MarshalECPrivateKey`, and whether each `os.WriteFile` succeeds.  A failed
write leaves the file as it was. -/
structure CertEnv where
  lib : Lib
  ParseCertificate : DER → Option X509Cert
  GenerateKey : Except String Key
  CreateCertificate : X509Cert → Key → Except String DER
  MarshalECPrivateKey : Key → Except String Key
  writeCert : Bool
  writeKey : Bool

/-- Go's `tls.LoadX509KeyPair` on the two files: both must decode and the key
must belong to the certificate. -/
def LoadX509KeyPair (disk : Disk) : Option TLSCertificate :=
  match disk.certFile, disk.keyFile with
  | some der, some key => if der.PublicKey = key then some ⟨[der], some key⟩ else none
  | _, _ => none

/-- Go's `t.Before(u)`: `t` is strictly earlier than `u`. -/
def Before (t u : Time) : Bool := decide (t < u)

def KeyUsageDigitalSignature : Nat := 1
def KeyUsageKeyEncipherment : Nat := 4
def ExtKeyUsageServerAuth : Nat := 1

/-- The certificate template (lines 788 to 807); `now1` and `now2` are the
clock readings taken for `NotBefore` and for `NotAfter`. -/
def certTemplate (lib : Lib) (lanIP : String) (now1 now2 : Time) : X509Cert :=
  { SerialNumber := 1
    Organization := ["Ginkgo Talk"]
    CommonName := "Ginkgo Talk Local Server"
    NotBefore := now1
    NotAfter := Add now2 (365 * 24 * hour)
    KeyUsage := KeyUsageDigitalSignature ||| KeyUsageKeyEncipherment
    ExtKeyUsage := [ExtKeyUsageServerAuth]
    BasicConstraintsValid := true
    IPAddresses :=
      [lib.ParseIP "127.0.0.1"] ++ (if lanIP ≠ "localhost" then [lib.ParseIP lanIP] else [])
    DNSNames := ["localhost"] }

/-- The zero value `tls.Certificate{}`. -/
def zeroCertificate : TLSCertificate := ⟨[], none⟩

/-- The generation part of `generateSelfSignedCert` (lines 782 to 833); returns
the disk after the writes and the pair `(tls.Certificate, error)`. -/
def issue (env : CertEnv) (disk : Disk) (lanIP : String) (now1 now2 : Time) :
    Disk × TLSCertificate × Option String :=
  match env.GenerateKey with
  | Except.error e => (disk, zeroCertificate, some e)
  | Except.ok priv =>
    match env.CreateCertificate (certTemplate env.lib lanIP now1 now2) priv with
    | Except.error e => (disk, zeroCertificate, some e)
    | Except.ok certDER =>
      match env.MarshalECPrivateKey priv with
      | Except.error e => (disk, zeroCertificate, some e)
      | Except.ok keyDER =>
        let disk1 := if env.writeCert then { disk with certFile := some certDER } else disk
        let disk2 := if env.writeKey then { disk1 with keyFile := some keyDER } else disk1
        (disk2, ⟨[certDER], some priv⟩, none)

/-- The loop that sets `ipMatch` (lines 767 to 773). -/
def ipMatch (lib : Lib) (x509Cert : X509Cert) (lanIP : String) : Bool :=
  x509Cert.IPAddresses.any fun ip => IPString lib ip == lanIP

/-- The function `generateSelfSignedCert`; `now0` is the clock reading of the
expiry check. -/
def generateSelfSignedCert (env : CertEnv) (disk : Disk) (lanIP : String)
    (now0 now1 now2 : Time) : Disk × TLSCertificate × Option String :=
  match LoadX509KeyPair disk with
  | some cert =>
    match cert.Certificate.head?.bind env.ParseCertificate with
    | some x509Cert =>
      if ipMatch env.lib x509Cert lanIP = true ∧ Before now0 x509Cert.NotAfter = true then
        (disk, cert, none)
      else issue env disk lanIP now1 now2
    | none => issue env disk lanIP now1 now2
  | none => issue env disk lanIP now1 now2

/-- The whole second at or before an instant: X.509 stores `NotBefore` and
`NotAfter` in seconds. -/
def truncSec (t : Time) : Time :=
  t / second * second

/-- The bytes `x509` stores for an IP SAN: the 4-byte form when the address is
an IPv4 address, otherwise the address as given. -/
def marshalIP (ip : IP) : IP :=
  if To4 ip ≠ [] then To4 ip else ip

/-- What a successful `x509.CreateCertificate` returns for a template and a
key, by the content that is read back from it: the template with its two
times in whole seconds and its IP SANs as stored, and the key. -/
def encodeCertificate (template : X509Cert) (key : Key) : DER :=
  ⟨{ template with
      NotBefore := truncSec template.NotBefore
      NotAfter := truncSec template.NotAfter
      IPAddresses := template.IPAddresses.map marshalIP }, key⟩

/-! ## Connection hub: sequences of accepts and teardowns -/

/-- One event of the connection hub: a handler stores the connection it
upgraded (lines 224 to 230), or a handler runs its deferred teardown (lines 235
to 244). -/
inductive HubStep where
  | accept (conn : Conn) (r : Request)
  | teardown (conn : Conn)
deriving DecidableEq, Repr

/-- The effect of one hub event on the world. -/
def hubStep (w : World) : HubStep → World
  | HubStep.accept conn r => acceptConn w conn r
  | HubStep.teardown conn => releaseConn w conn

/-- The effect of a sequence of hub events, in order. -/
def hubRun : World → List HubStep → World
  | w, [] => w
  | w, st :: rest => hubRun (hubStep w st) rest

/-- The connections accepted in a sequence of hub events. -/
def acceptedConns : List HubStep → List Conn
  | [] => []
  | HubStep.accept conn _ :: rest => conn :: acceptedConns rest
  | HubStep.teardown _ :: rest => acceptedConns rest

/-! ## Configuration endpoint (`Server.handleConfig`, lines 436 to 527) -/

/-- The body struct that `handleConfig` decodes. -/
structure ConfigBody where
  APIKey : String
  BaseURL : String
  Model : String
  LanIP : String
deriving DecidableEq, Repr

/-- The struct `Config` of `config.go`, as passed to `SaveConfig`. -/
structure Config where
  APIKey : String
  BaseURL : String
  Model : String
  LanIP : String
deriving DecidableEq, Repr

/-- The replacement code point U+FFFD, Go's `utf8.RuneError`. -/
def RuneError : Char := Char.ofNat 0xFFFD

/-- Go's `utf8.DecodeRune` at the start of a non-empty byte sequence: the code
point encoded there and its width, or `(RuneError, 1)` when the bytes there are
not the encoding of a code point (a stray or cut sequence, an overlong form, a
surrogate, a value beyond U+10FFFF). -/
def DecodeRune (b : List Nat) : Char × Nat :=
  let b0 := b.getD 0 0
  if b0 < 0x80 then (Char.ofNat b0, 1)
  else
    let size :=
      if 0xC0 ≤ b0 ∧ b0 < 0xE0 then 2
      else if 0xE0 ≤ b0 ∧ b0 < 0xF0 then 3
      else if 0xF0 ≤ b0 ∧ b0 < 0xF8 then 4
      else 1
    let n :=
      if size = 2 then (b0 - 0xC0) * 64 + (b.getD 1 0 - 0x80)
      else if size = 3 then
        (b0 - 0xE0) * 4096 + (b.getD 1 0 - 0x80) * 64 + (b.getD 2 0 - 0x80)
      else
        (b0 - 0xF0) * 262144 + (b.getD 1 0 - 0x80) * 4096 + (b.getD 2 0 - 0x80) * 64 +
          (b.getD 3 0 - 0x80)
    if 1 < size ∧ utf8EncodeChar (Char.ofNat n) = b.take size then (Char.ofNat n, size)
    else (RuneError, 1)

/-- The code points `encoding/json` writes for a Go string, one `DecodeRune` at
a time: each byte that does not start a well-formed encoding becomes U+FFFD.
The first argument bounds the number of steps; the length of the bytes is
enough, since every step consumes at least one byte. -/
def validRunes : Nat → List Nat → List Char
  | 0, _ => []
  | _ + 1, [] => []
  | fuel + 1, b0 :: rest =>
    (DecodeRune (b0 :: rest)).1 ::
      validRunes fuel ((b0 :: rest).drop (DecodeRune (b0 :: rest)).2)

/-- The text a client reads from the JSON string that `encoding/json` writes
for a Go string with the bytes `b`. -/
def jsonText (b : List Nat) : String :=
  ⟨validRunes b.length b⟩

/-- The JSON body `handleConfig` writes, as the client reads it: an error, the
answer to a POST, or the answer to a GET. -/
inductive ConfigReply where
  | error (msg : String)
  | saved (aiAvailable : Bool) (model baseUrl lanIp : String)
  | current (apiKey : String) (baseUrl model lanIp : String) (aiAvailable : Bool)
deriving DecidableEq, Repr

/-- What `handleConfig` wrote: the status code (200 when `WriteHeader` is not
called) and the body. -/
structure ConfigResponse where
  status : Nat
  body : ConfigReply
deriving DecidableEq, Repr

/-- Go's `strings.TrimRight`: drops the trailing code points that occur in
`cutset`. -/
def TrimRight (s cutset : String) : String :=
  ⟨(s.data.reverse.dropWhile fun c => cutset.data.contains c).reverse⟩

/-- Lower-casing of an ASCII letter, other code points unchanged. -/
def asciiLower (c : Char) : Char :=
  if 0x41 ≤ c.toNat ∧ c.toNat ≤ 0x5A then Char.ofNat (c.toNat + 0x20) else c

/-- Go's `strings.EqualFold` against a string of ASCII letters that have no
case variant beyond ASCII, as `auto` is: equal up to the case of ASCII
letters. -/
def EqualFold (s t : String) : Bool :=
  s.data.map asciiLower == t.data.map asciiLower

/-- The Go string `maskedKey` (lines 511 to 519), as bytes:
`k[:4] + "****" + k[len(k)-4:]` for a key longer than 8 bytes.  The slices are
taken by bytes and may cut a character. -/
def maskKey (apiKey : String) : List Nat :=
  if apiKey ≠ "" then
    let k := bytes apiKey
    if k.length > 8 then k.take 4 ++ bytes "****" ++ k.drop (k.length - 4)
    else bytes "****"
  else bytes ""

/-- The end of a successful POST (lines 492 to 507): `SaveConfig` and the
answer. -/
def saveAndReply (s : Server) : Server × ConfigResponse × Option Config :=
  (s, ⟨StatusOK, ConfigReply.saved (IsAvailable s.ai) s.ai.model s.ai.baseURL s.lanIPOverride⟩,
    some ⟨s.ai.apiKey, s.ai.baseURL, s.ai.model, s.lanIPOverride⟩)

/-- The method `Server.handleConfig`, reading the clock as `now`.  `body` is
the result of decoding the request body (`none` for an error); the third
component of the result is the `Config` passed to `SaveConfig`, `none` when it
is not called. -/
def handleConfig (lib : Lib) (s : Server) (r : Request) (body : Option ConfigBody)
    (now : Time) : Server × ConfigResponse × Option Config :=
  if !isTokenAuthorized s r then
    (s, ⟨StatusUnauthorized, ConfigReply.error "unauthorized"⟩, none)
  else
    let p := isClientPaired s r now
    if !p.2 then (p.1, ⟨StatusForbidden, ConfigReply.error "pair required"⟩, none)
    else
      let s0 := p.1
      if r.Method = MethodPost then
        match body with
        | none => (s0, ⟨StatusBadRequest, ConfigReply.error "invalid request"⟩, none)
        | some body =>
          let s1 := if body.APIKey ≠ "" then { s0 with ai := SetAPIKey s0.ai body.APIKey } else s0
          let s2 :=
            if body.BaseURL ≠ "" then
              { s1 with ai := { s1.ai with baseURL := TrimRight body.BaseURL "/" } }
            else s1
          let s3 := if body.Model ≠ "" then { s2 with ai := { s2.ai with model := body.Model } } else s2
          if body.LanIP ≠ "" then
            let lanIP := TrimSpace body.LanIP
            if EqualFold lanIP "auto" = true then saveAndReply { s3 with lanIPOverride := "" }
            else
              let ip := lib.ParseIP lanIP
              if ip = [] ∨ To4 ip = [] then
                (s3, ⟨StatusBadRequest, ConfigReply.error "invalid lanIp"⟩, none)
              else saveAndReply { s3 with lanIPOverride := lanIP }
          else saveAndReply s3
      else
        (s0, ⟨StatusOK, ConfigReply.current (jsonText (maskKey s0.ai.apiKey)) s0.ai.baseURL
          s0.ai.model s0.lanIPOverride (IsAvailable s0.ai)⟩, none)

/-! ## Sample inputs -/

/-- A server as `NewServer` leaves it: nothing paired, nothing connected. -/
def freshServer : Server :=
  { conn := none, clientAddr := "", pairedDeviceID := "", pairedUntil := zeroTime,
    startedAt := 1000, addr := ":8443", lanIPOverride := "", authToken := "a1b2c3d4e5f60718",
    pairCode := "4821", ai := ⟨"", "https://api.deepseek.com", "deepseek-chat"⟩,
    hasSentText := false }

/-- A request that carries nothing. -/
def emptyRequest : Request :=
  { Method := MethodGet, RemoteAddr := "192.168.1.20:50000", queryToken := "",
    headerToken := "", queryDeviceID := "", headerDeviceID := "", pairBody := none }

/-- A request whose token is the right one followed by a blank. -/
def paddedTokenRequest : Request :=
  { emptyRequest with queryToken := "a1b2c3d4e5f60718 " }

/-- A pair request that presents no token at all, with the right code. -/
def pairRequestNoToken : Request :=
  { emptyRequest with Method := MethodPost, pairBody := some ⟨"4821", "phone-1"⟩ }

/-- A server whose slot is held by `phone-1` until instant `9000`. -/
def pairedServer : Server :=
  { freshServer with pairedDeviceID := "phone-1", pairedUntil := 9000 }

/-- A pair request of `phone-2` with a wrong code and no token. -/
def wrongCodeRequest : Request :=
  { emptyRequest with Method := MethodPost, pairBody := some ⟨"0000", "phone-2"⟩ }

/-- A pair request of `phone-2` with the right code. -/
def pairRequestSecond : Request :=
  { emptyRequest with
    Method := MethodPost
    queryDeviceID := "phone-2"
    pairBody := some ⟨" 4821", ""⟩ }

/-- An environment in which the transform service answers `Hello.` and every
injector operation succeeds. -/
def helloEnv : Env :=
  { callAPI := fun _ _ _ => ("Hello.", none), inject := fun _ _ => none }

/-- An environment in which the transform service fails. -/
def failingEnv : Env :=
  { callAPI := fun _ _ _ => ("", some "API call failed"), inject := fun _ _ => none }

/-- A world around a server, with empty logs. -/
def worldOf (s : Server) : World :=
  { server := s, closed := [], injected := [], apiCalls := [], sent := [] }

/-- The fresh server with a transform-service key configured. -/
def aiServer : Server :=
  { freshServer with ai := ⟨"sk-test", "https://api.deepseek.com", "deepseek-chat"⟩ }

/-- An upgrade request of `phone-2` with the right token. -/
def upgradeRequest : Request :=
  { emptyRequest with queryToken := "a1b2c3d4e5f60718", queryDeviceID := "phone-2" }

/-- The message `{type:"text", text:"hello", mode:"tidy"}`. -/
def helloTidy : Message := ⟨"text", "hello", "tidy"⟩

/-- An environment in which typing succeeds and every press of Enter fails. -/
def enterFailsEnv : Env :=
  { callAPI := fun _ _ _ => ("", none)
    inject := fun _ op =>
      if op = InjectorOp.PressEnter then some "SendInput (key 0xD) failed" else none }

/-- The message `{type:"text", text:"hello", mode:"raw"}`. -/
def helloRaw : Message := ⟨"text", "hello", "raw"⟩

/-- A library whose unmodelled parts do nothing. -/
def plainLib : Lib :=
  { lowerRune := fun c => c
    ipv6Text := fun _ => "::"
    ParseIP := fun s =>
      if s = "127.0.0.1" then [0, 0, 0, 0, 0, 0, 0, 0, 0, 0, 0xff, 0xff, 127, 0, 0, 1]
      else if s = "10.0.0.5" then [0, 0, 0, 0, 0, 0, 0, 0, 0, 0, 0xff, 0xff, 10, 0, 0, 5]
      else [] }

/-- An interface named `Ethernet`, up with broadcast and multicast, holding
`10.0.0.5`. -/
def ethernetIface : Interface :=
  ⟨"Ethernet", 51, some [Addr.IPNet [10, 0, 0, 5]]⟩

/-- An interface named `Docker vEthernet`, up with broadcast and multicast,
holding `172.17.0.1`. -/
def dockerIface : Interface :=
  ⟨"Docker vEthernet", 51, some [Addr.IPNet [172, 17, 0, 1]]⟩

/-- An interface named `Ethernet` that is up and running with broadcast but
without the multicast flag, holding `10.0.0.5`. -/
def noMulticastIface : Interface :=
  ⟨"Ethernet", 35, some [Addr.IPNet [10, 0, 0, 5]]⟩

/-- An environment in which parsing and generation succeed, the generated key
is `key`, and both files are written. -/
def certEnvWith (key : Key) : CertEnv :=
  { lib := plainLib
    ParseCertificate := fun der => some der.cert
    GenerateKey := Except.ok key
    CreateCertificate := fun t k => Except.ok ⟨t, k⟩
    MarshalECPrivateKey := fun k => Except.ok k
    writeCert := true
    writeKey := true }

/-- A disk without the two files. -/
def emptyDisk : Disk := ⟨none, none⟩

/-- The disk after an identity for the address `localhost` was generated at
instant `1000` with key `1` and saved. -/
def localhostDisk : Disk :=
  ⟨some ⟨certTemplate plainLib "localhost" 1000 1000, 1⟩, some 1⟩

/-- The disk after an identity for the address `10.0.0.5` was generated at
instant `1000` with key `1` and saved. -/
def lanDisk : Disk :=
  ⟨some ⟨certTemplate plainLib "10.0.0.5" 1000 1000, 1⟩, some 1⟩

/-- A request of the paired device `phone-1` with the right token. -/
def configRequest : Request :=
  { emptyRequest with
    queryToken := "a1b2c3d4e5f60718"
    queryDeviceID := "phone-1" }

/-- The paired server with the key `sk-old-key-0001` configured. -/
def keyedServer : Server :=
  { pairedServer with ai := ⟨"sk-old-key-0001", "https://api.deepseek.com", "deepseek-chat"⟩ }

/-- A POST of the paired device `phone-1` with the right token. -/
def configPost : Request :=
  { configRequest with Method := MethodPost }

/-- A body with new values for key, base URL and model, and a `lanIp` that is
neither `auto` nor an address. -/
def badLanIPBody : ConfigBody :=
  ⟨"sk-new", "https://example.org/", "other-model", "not-an-ip"⟩

/-- A server whose slot is held by `tablet-7` until 24 hours after instant
`5000`. -/
def tabletServer : Server :=
  { freshServer with pairedDeviceID := "tablet-7", pairedUntil := 86400000005000 }

/-- An environment like `certEnvWith` in which `x509.CreateCertificate` returns
the encoding of the template. -/
def x509Env (key : Key) : CertEnv :=
  { lib := plainLib
    ParseCertificate := fun der => some der.cert
    GenerateKey := Except.ok key
    CreateCertificate := fun t k => Except.ok (encodeCertificate t k)
    MarshalECPrivateKey := fun k => Except.ok k
    writeCert := true
    writeKey := true }

/-- The disk after an identity for the address `localhost` was generated with
key `1`, half a microsecond after second `1000`, and saved. -/
def staleDisk : Disk :=
  ⟨some (encodeCertificate (certTemplate plainLib "localhost" 1000000000500 1000000000900) 1),
    some 1⟩

/-! ## Lemmas on the library functions -/

theorem or_eq_zero_iff (a b : Nat) : a ||| b = 0 ↔ a = 0 ∧ b = 0 := by
  constructor
  · intro h
    have hbit : ∀ i, (a.testBit i || b.testBit i) = false := by
      intro i
      rw [← Nat.testBit_or, h, Nat.zero_testBit]
    constructor
    · apply Nat.eq_of_testBit_eq
      intro i
      have := hbit i
      simp only [Bool.or_eq_false_iff] at this
      rw [this.1, Nat.zero_testBit]
    · apply Nat.eq_of_testBit_eq
      intro i
      have := hbit i
      simp only [Bool.or_eq_false_iff] at this
      rw [this.2, Nat.zero_testBit]
  · rintro ⟨rfl, rfl⟩
    rfl

theorem xor_lt_256 {a b : Nat} (ha : a < 256) (hb : b < 256) : a ^^^ b < 256 :=
  Nat.xor_lt_two_pow (n := 8) ha hb

theorem or_lt_256 {a b : Nat} (ha : a < 256) (hb : b < 256) : a ||| b < 256 :=
  Nat.or_lt_two_pow (n := 8) ha hb

theorem xorAccumulate_lt (x : List Nat) : ∀ (y : List Nat) (v : Nat), v < 256 →
    xorAccumulate v x y < 256 := by
  induction x with
  | nil => intro y v hv; cases y <;> simpa [xorAccumulate] using hv
  | cons a x ih =>
    intro y v hv
    cases y with
    | nil => simpa [xorAccumulate] using hv
    | cons b y =>
      simp only [xorAccumulate]
      exact ih y _ (Nat.mod_lt _ (by decide))

theorem xorAccumulate_eq_zero (x : List Nat) : ∀ (y : List Nat) (v : Nat),
    x.length = y.length → (∀ b ∈ x, b < 256) → (∀ b ∈ y, b < 256) → v < 256 →
    (xorAccumulate v x y = 0 ↔ v = 0 ∧ x = y) := by
  induction x with
  | nil =>
    intro y v hlen _ _ _
    cases y with
    | nil => simp [xorAccumulate]
    | cons b y => simp at hlen
  | cons a x ih =>
    intro y v hlen hx hy hv
    cases y with
    | nil => simp at hlen
    | cons b y =>
      have ha : a < 256 := hx a (List.mem_cons_self _ _)
      have hb : b < 256 := hy b (List.mem_cons_self _ _)
      have hlt : v ||| (a ^^^ b) < 256 := or_lt_256 hv (xor_lt_256 ha hb)
      simp only [xorAccumulate, Nat.mod_eq_of_lt hlt]
      rw [ih y _ (by simpa using hlen) (fun c hc => hx c (List.mem_cons_of_mem _ hc))
        (fun c hc => hy c (List.mem_cons_of_mem _ hc)) hlt]
      rw [or_eq_zero_iff, Nat.xor_eq_zero]
      constructor
      · rintro ⟨⟨h1, h2⟩, h3⟩
        exact ⟨h1, by rw [h2, h3]⟩
      · rintro ⟨h1, h2⟩
        simp only [List.cons.injEq] at h2
        exact ⟨⟨h1, h2.1⟩, h2.2⟩

theorem ConstantTimeByteEq_zero (v : Nat) (hv : v < 256) :
    ConstantTimeByteEq v 0 = 1 ↔ v = 0 := by
  unfold ConstantTimeByteEq
  rw [Nat.xor_zero]
  omega

/-- On byte sequences, `ConstantTimeCompare` answers `1` exactly on equal
sequences. -/
theorem ConstantTimeCompare_eq_one_iff (x y : List Nat) (hx : ∀ b ∈ x, b < 256)
    (hy : ∀ b ∈ y, b < 256) : ConstantTimeCompare x y = 1 ↔ x = y := by
  unfold ConstantTimeCompare
  by_cases hlen : x.length = y.length
  · simp only [hlen, ne_eq, not_true_eq_false, if_false]
    rw [ConstantTimeByteEq_zero _ (xorAccumulate_lt x y 0 (by decide)),
      xorAccumulate_eq_zero x y 0 hlen hx hy (by decide)]
    simp
  · simp only [ne_eq, hlen, not_false_eq_true, if_true]
    constructor
    · intro h; cases h
    · intro h; exact absurd (congrArg List.length h) hlen

theorem char_toNat_lt (c : Char) : c.toNat < 0x110000 := by
  have h := c.valid
  simp only [UInt32.isValidChar, Nat.isValidChar] at h
  show c.val.toNat < 0x110000
  omega

theorem char_eq_of_toNat_eq {c d : Char} (h : c.toNat = d.toNat) : c = d :=
  Char.ext (UInt32.ext h)

theorem utf8EncodeChar_lt (c : Char) : ∀ b ∈ utf8EncodeChar c, b < 256 := by
  have hc := char_toNat_lt c
  intro b hb
  unfold utf8EncodeChar at hb
  simp only at hb
  split_ifs at hb <;> simp only [List.mem_cons, List.mem_singleton, List.not_mem_nil,
    or_false] at hb <;> omega

theorem bytesOf_lt (l : List Char) : ∀ b ∈ bytesOf l, b < 256 := by
  induction l with
  | nil => intro b hb; simp [bytesOf] at hb
  | cons c cs ih =>
    intro b hb
    simp only [bytesOf, List.mem_append] at hb
    rcases hb with hb | hb
    · exact utf8EncodeChar_lt c b hb
    · exact ih b hb

theorem utf8EncodeChar_ne_nil (c : Char) : utf8EncodeChar c ≠ [] := by
  unfold utf8EncodeChar
  simp only
  split_ifs <;> simp

/-- The encoding is a prefix code: the first bytes of a sequence determine the
first code point. -/
theorem utf8EncodeChar_append_inj (c d : Char) (r s : List Nat)
    (h : utf8EncodeChar c ++ r = utf8EncodeChar d ++ s) : c = d ∧ r = s := by
  have hc := char_toNat_lt c
  have hd := char_toNat_lt d
  unfold utf8EncodeChar at h
  simp only at h
  split_ifs at h <;>
    simp only [List.cons_append, List.nil_append, List.cons.injEq] at h <;>
    first
    | (exfalso; omega)
    | (refine ⟨char_eq_of_toNat_eq ?_, ?_⟩
       · omega
       · simp only [h])

theorem bytesOf_injective (l : List Char) : ∀ m : List Char, bytesOf l = bytesOf m → l = m := by
  induction l with
  | nil =>
    intro m h
    cases m with
    | nil => rfl
    | cons d ds =>
      simp only [bytesOf] at h
      exact absurd (List.append_eq_nil.mp h.symm).1 (utf8EncodeChar_ne_nil d)
  | cons c cs ih =>
    intro m h
    cases m with
    | nil =>
      simp only [bytesOf] at h
      exact absurd (List.append_eq_nil.mp h).1 (utf8EncodeChar_ne_nil c)
    | cons d ds =>
      simp only [bytesOf] at h
      obtain ⟨h1, h2⟩ := utf8EncodeChar_append_inj c d _ _ h
      rw [h1, ih ds h2]

theorem bytes_injective {a b : String} (h : bytes a = bytes b) : a = b := by
  cases a with
  | mk x =>
    cases b with
    | mk y =>
      have := bytesOf_injective x y h
      rw [this]

/-- On the bytes of two strings, `ConstantTimeCompare` answers `1` exactly when
the strings are equal. -/
theorem ConstantTimeCompare_bytes (a b : String) :
    ConstantTimeCompare (bytes a) (bytes b) = 1 ↔ a = b := by
  unfold bytes
  rw [ConstantTimeCompare_eq_one_iff _ _ (bytesOf_lt a.data) (bytesOf_lt b.data)]
  exact ⟨bytes_injective, fun h => by rw [h]⟩

/-! ## Token authorization -/

theorem isTokenAuthorized_iff (s : Server) (r : Request) :
    isTokenAuthorized s r = true ↔
      presentedToken r ≠ "" ∧ s.authToken ≠ "" ∧ presentedToken r = s.authToken := by
  unfold isTokenAuthorized presentedToken
  simp only
  split_ifs with h1 h2 h2 <;>
    simp only [beq_iff_eq, ConstantTimeCompare_bytes, Bool.false_eq_true, false_iff] <;> tauto

theorem string_append_ne_self (p rest : String) (h : rest ≠ "") : p ++ rest ≠ p := by
  intro heq
  apply h
  have hd : p.data ++ rest.data = p.data := by
    rw [← String.data_append, heq]
  have : rest.data = [] := by simpa using hd
  exact String.ext this

/-! ## Pairing state -/

/-- The slot after lazy expiry. -/
theorem pairingState_eq (s : Server) (d : String) (now : Time) :
    pairingState s d now =
      if d = "" ∨ s.pairedDeviceID = "" ∨ s.pairedUntil = 0 then (s, false, zeroTime)
      else if s.pairedUntil < now then
        ({ s with pairedDeviceID := "", pairedUntil := zeroTime }, false, zeroTime)
      else if d = s.pairedDeviceID then (s, true, s.pairedUntil)
      else (s, false, zeroTime) := by
  unfold pairingState IsZero After zeroTime
  simp only [ne_eq, ConstantTimeCompare_bytes, beq_iff_eq, decide_eq_true_eq]
  split_ifs <;> first | rfl | tauto

theorem pairingState_conn (s : Server) (d : String) (now : Time) :
    (pairingState s d now).1.conn = s.conn ∧
      (pairingState s d now).1.clientAddr = s.clientAddr := by
  rw [pairingState_eq]
  split_ifs <;> exact ⟨rfl, rfl⟩

/-- C6, amended: once the clock is strictly after `pairedUntil`, `pairingState`
answers false for every device id; at the instant `now = pairedUntil` itself a
paired device is still found paired. -/
theorem pairingState_after_expiry (s : Server) (d : String) (now : Time)
    (h : s.pairedUntil < now) :
    (pairingState s d now).2 = (false, zeroTime) ∧
      (d ≠ "" → s.pairedDeviceID = d → s.pairedUntil ≠ zeroTime →
        pairingState s d s.pairedUntil = (s, true, s.pairedUntil)) := by
  constructor
  · rw [pairingState_eq]
    split_ifs <;> rfl
  · intro hd hp hz
    rw [pairingState_eq]
    unfold zeroTime at hz
    have h1 : ¬ (d = "" ∨ s.pairedDeviceID = "" ∨ s.pairedUntil = 0) := by
      rw [hp]; tauto
    rw [if_neg h1, if_neg (lt_irrefl _), if_pos hp.symm]

theorem pairingState_after_expiry_witness :
    (pairingState pairedServer "phone-1" 9001).2 = (false, zeroTime) ∧
      ("phone-1" ≠ "" → pairedServer.pairedDeviceID = "phone-1" →
        pairedServer.pairedUntil ≠ zeroTime →
        pairingState pairedServer "phone-1" pairedServer.pairedUntil =
          (pairedServer, true, pairedServer.pairedUntil)) :=
  pairingState_after_expiry pairedServer "phone-1" 9001 (by decide)

/-- C6, counterexample: checked at exactly `now = pairedUntil`, the paired
device is reported paired, although `now >= pairedUntil`. -/
theorem pairingState_valid_at_expiry_instant :
    pairedServer.pairedUntil ≤ 9000 ∧
      pairingState pairedServer "phone-1" 9000 = (pairedServer, true, 9000) := by
  decide

/-- C7: for a slot paired to `d` until `pairedUntil`, the check one second
before `pairedUntil` answers `(true, pairedUntil)` and leaves the server as it
was; the check one second after answers false and clears the slot; on the
cleared slot every further check, for any device id at any time, answers false
and leaves the slot cleared. -/
theorem pairingState_lazy_expiry (s : Server) (d : String) (hd : d ≠ "")
    (hp : s.pairedDeviceID = d) (hz : s.pairedUntil ≠ zeroTime) :
    pairingState s d (s.pairedUntil - second) = (s, true, s.pairedUntil) ∧
      pairingState s d (s.pairedUntil + second) =
        ({ s with pairedDeviceID := "", pairedUntil := zeroTime }, false, zeroTime) ∧
      ∀ (d2 : String) (t : Time),
        pairingState { s with pairedDeviceID := "", pairedUntil := zeroTime } d2 t =
          ({ s with pairedDeviceID := "", pairedUntil := zeroTime }, false, zeroTime) := by
  unfold zeroTime at hz
  have h1 : ¬ (d = "" ∨ s.pairedDeviceID = "" ∨ s.pairedUntil = 0) := by
    rw [hp]; tauto
  refine ⟨?_, ?_, ?_⟩
  · rw [pairingState_eq, if_neg h1, if_neg (Nat.not_lt.mpr (Nat.sub_le _ _)), if_pos hp.symm]
  · rw [pairingState_eq, if_neg h1,
      if_pos (Nat.lt_add_of_pos_right (by decide : 0 < second))]
  · intro d2 t
    rw [pairingState_eq, if_pos (Or.inr (Or.inl rfl))]

theorem pairingState_lazy_expiry_witness :
    pairingState pairedServer "phone-1" (pairedServer.pairedUntil - second) =
        (pairedServer, true, pairedServer.pairedUntil) ∧
      pairingState pairedServer "phone-1" (pairedServer.pairedUntil + second) =
        ({ pairedServer with pairedDeviceID := "", pairedUntil := zeroTime }, false, zeroTime) ∧
      ∀ (d2 : String) (t : Time),
        pairingState { pairedServer with pairedDeviceID := "", pairedUntil := zeroTime } d2 t =
          ({ pairedServer with pairedDeviceID := "", pairedUntil := zeroTime }, false,
            zeroTime) :=
  pairingState_lazy_expiry pairedServer "phone-1" (by decide) (by decide) (by decide)

/-- C8, counterexample: at the instant `now = pairedUntil`, which is not
strictly before `pairedUntil`, `pairingState` answers true for the paired
device. -/
theorem pairingState_true_at_pairedUntil :
    ¬ ((86400000005000 : Time) < tabletServer.pairedUntil) ∧
      pairingState tabletServer "tablet-7" 86400000005000 =
        (tabletServer, true, 86400000005000) := by
  decide

/-- C8, amended: `pairingState` answers true only for a non-empty device id
whose bytes equal those of the stored `pairedDeviceID` while the clock is not
after `pairedUntil` (`now <= pairedUntil`), and the expiry it returns is then
the stored `pairedUntil`; it answers `(false, zero time)` when no pairing
exists, when the queried id is empty and when the queried id differs from the
stored one; and for a non-empty id equal to the stored one it answers true
when `now` is strictly before `pairedUntil`, and also at `now = pairedUntil`
itself when `pairedUntil` is not the zero time. -/
theorem pairingState_true_iff (s : Server) (d : String) (now : Time) :
    ((pairingState s d now).2.1 = true →
        d ≠ "" ∧ d = s.pairedDeviceID ∧ bytes d = bytes s.pairedDeviceID ∧
          After now s.pairedUntil = false ∧ (pairingState s d now).2.2 = s.pairedUntil) ∧
      (s.pairedDeviceID = "" ∨ IsZero s.pairedUntil = true ∨ d = "" ∨ d ≠ s.pairedDeviceID →
        (pairingState s d now).2 = (false, zeroTime)) ∧
      (d ≠ "" → d = s.pairedDeviceID → now < s.pairedUntil →
        pairingState s d now = (s, true, s.pairedUntil)) ∧
      ((pairingState s d now).2.1 = true → now ≤ s.pairedUntil) ∧
      (d ≠ "" → d = s.pairedDeviceID → IsZero s.pairedUntil = false → now ≤ s.pairedUntil →
        pairingState s d now = (s, true, s.pairedUntil)) := by
  unfold After IsZero zeroTime
  simp only [beq_iff_eq, decide_eq_false_iff_not]
  refine ⟨?_, ?_, ?_, ?_, ?_⟩
  rotate_left 3
  · rw [pairingState_eq]
    split_ifs with h1 h2 h3
    · intro h; cases h
    · intro h; cases h
    · intro _
      exact Nat.le_of_not_lt h2
    · intro h; cases h
  · intro hd hp hz hle
    rw [pairingState_eq]
    have h1 : ¬ (d = "" ∨ s.pairedDeviceID = "" ∨ s.pairedUntil = 0) := by
      rw [← hp]
      intro h
      rcases h with h | h | h
      · exact hd h
      · exact hd h
      · rw [h] at hz
        exact absurd hz (by decide)
    rw [if_neg h1, if_neg (Nat.not_lt.mpr hle), if_pos hp]
  · rw [pairingState_eq]
    split_ifs with h1 h2 h3
    · intro h; cases h
    · intro h; cases h
    · intro _
      exact ⟨fun h => h1 (Or.inl h), h3, by rw [h3], h2, rfl⟩
    · intro h; cases h
  · intro h
    rw [pairingState_eq]
    split_ifs with h1 h2 h3
    · rfl
    · rfl
    · exfalso; tauto
    · rfl
  · intro hd hp hlt
    rw [pairingState_eq]
    have h1 : ¬ (d = "" ∨ s.pairedDeviceID = "" ∨ s.pairedUntil = 0) := by
      rw [← hp]
      intro h
      rcases h with h | h | h
      · exact hd h
      · exact hd h
      · exact Nat.not_eq_zero_of_lt hlt h
    rw [if_neg h1, if_neg (Nat.lt_asymm hlt), if_pos hp]

theorem pairingState_true_iff_witness :
    pairingState pairedServer "phone-1" 8999 = (pairedServer, true, 9000) ∧
      (pairingState pairedServer "phone-2" 8999).2 = (false, zeroTime) :=
  have h := pairingState_true_iff pairedServer
  ⟨(h "phone-1" 8999).2.2.1 (by decide) (by decide) (by decide),
    (h "phone-2" 8999).2.1 (Or.inr (Or.inr (Or.inr (by decide))))⟩

/-! ## Token authorization: the claims -/

/-- C3, counterexample: a presented token that is the auth token followed by a
blank differs from the auth token, yet `isTokenAuthorized` answers true. -/
theorem isTokenAuthorized_padded_token_accepted :
    rawToken paddedTokenRequest ≠ freshServer.authToken ∧
      isTokenAuthorized freshServer paddedTokenRequest = true := by
  decide

/-- C3, amended: with the presented token taken after `TrimSpace` (the trimmed
`token` query parameter, or the trimmed `X-GTalk-Token` header when that is
empty), `isTokenAuthorized` answers false whenever that token is not equal to
the auth token, in particular when it is a proper prefix of the auth token, and
whenever that token or the stored token is empty. -/
theorem isTokenAuthorized_rejects_mismatch (s : Server) (r : Request) :
    (presentedToken r ≠ s.authToken → isTokenAuthorized s r = false) ∧
      (∀ rest : String, rest ≠ "" → s.authToken = presentedToken r ++ rest →
        isTokenAuthorized s r = false) ∧
      (presentedToken r = "" ∨ s.authToken = "" → isTokenAuthorized s r = false) := by
  have key : ∀ {p : Prop}, (p → ¬ (presentedToken r ≠ "" ∧ s.authToken ≠ "" ∧
      presentedToken r = s.authToken)) → p → isTokenAuthorized s r = false := by
    intro p hp h
    cases hb : isTokenAuthorized s r with
    | false => rfl
    | true => exact absurd ((isTokenAuthorized_iff s r).mp hb) (hp h)
  refine ⟨key ?_, ?_, key ?_⟩
  · intro hne h
    exact hne h.2.2
  · intro rest hrest hauth
    refine key (p := True) ?_ trivial
    intro _ h
    apply string_append_ne_self (presentedToken r) rest hrest
    rw [← hauth, h.2.2]
  · intro hor h
    rcases hor with hor | hor
    · exact h.1 hor
    · exact h.2.1 hor

theorem isTokenAuthorized_rejects_mismatch_witness :
    isTokenAuthorized freshServer { emptyRequest with queryToken := "a1b2c3d4" } = false :=
  (isTokenAuthorized_rejects_mismatch freshServer
    { emptyRequest with queryToken := "a1b2c3d4" }).2.1 "e5f60718" (by decide) (by decide)

/-! ## The pairing endpoint: the claims -/

/-- C1, the code at the failing input: a POST that presents no token, with a
device id and the right code, is not authorized and still succeeds; the slot
is set and the response carries the auth token. -/
theorem handlePair_post_without_token :
    isTokenAuthorized freshServer pairRequestNoToken = false ∧
      handlePair freshServer pairRequestNoToken 5000 =
        ({ freshServer with pairedDeviceID := "phone-1", pairedUntil := 86400000005000 },
          ⟨200, [("ok", JSON.bool true), ("paired", JSON.bool true),
            ("pairRequired", JSON.bool false), ("pairExpiresAt", JSON.rfc3339 86400000005000),
            ("token", JSON.str "a1b2c3d4e5f60718")]⟩) := by
  decide

/-- What `handlePair` does with a POST whose body decodes. -/
theorem handlePair_post (s : Server) (r : Request) (now : Time) (body : PairBody)
    (hm : r.Method = MethodPost) (hb : r.pairBody = some body) :
    handlePair s r now =
      if pairDeviceID r body = "" then (s, errorResponse StatusBadRequest "missing device id")
      else if TrimSpace body.Code ≠ s.pairCode then
        (s, errorResponse StatusForbidden "invalid pair code")
      else
        ({ s with pairedDeviceID := pairDeviceID r body, pairedUntil := now + pairSessionTTL },
          ⟨StatusOK, [("ok", JSON.bool true), ("paired", JSON.bool true),
            ("pairRequired", JSON.bool false),
            ("pairExpiresAt", JSON.rfc3339 (now + pairSessionTTL)),
            ("token", JSON.str s.authToken)]⟩) := by
  have hg : ¬ (MethodPost = MethodGet) := by decide
  unfold handlePair pairDeviceID Add
  simp only [hm, hb, hg, if_false, ne_eq, not_true_eq_false, ConstantTimeCompare_bytes]

/-- What `handlePair` does with a POST whose body does not decode. -/
theorem handlePair_post_undecodable (s : Server) (r : Request) (now : Time)
    (hm : r.Method = MethodPost) (hb : r.pairBody = none) :
    handlePair s r now = (s, errorResponse StatusBadRequest "invalid request") := by
  have hg : ¬ (MethodPost = MethodGet) := by decide
  unfold handlePair
  simp only [hm, hb, hg, if_false, ne_eq, not_true_eq_false]

/-- C5: a POST that supplies no device id in query, header or body is answered
400 (also when the ids supplied are blank, and when the body does not decode),
and one with a device id whose code differs from the pair code is answered
403; in both cases, and for every POST not answered 200, the server, and so
`pairedDeviceID` and `pairedUntil`, is exactly what it was before the call. -/
theorem handlePair_rejected_keeps_slot (s : Server) (r : Request) (now : Time)
    (hm : r.Method = MethodPost) :
    (∀ body, r.pairBody = some body → pairDeviceID r body = "" →
        handlePair s r now = (s, errorResponse StatusBadRequest "missing device id")) ∧
      (∀ body, r.pairBody = some body → pairDeviceID r body ≠ "" →
        TrimSpace body.Code ≠ s.pairCode →
        handlePair s r now = (s, errorResponse StatusForbidden "invalid pair code")) ∧
      ((handlePair s r now).2.status ≠ StatusOK →
        (handlePair s r now).1 = s ∧
          (handlePair s r now).1.pairedDeviceID = s.pairedDeviceID ∧
          (handlePair s r now).1.pairedUntil = s.pairedUntil) ∧
      (r.queryDeviceID = "" → r.headerDeviceID = "" →
        (∀ body, r.pairBody = some body → body.DeviceID = "") →
        (handlePair s r now).2.status = StatusBadRequest ∧ (handlePair s r now).1 = s) := by
  refine ⟨?_, ?_, ?_, ?_⟩
  rotate_left 3
  · intro hq hh hbody
    cases hb : r.pairBody with
    | none =>
      rw [handlePair_post_undecodable s r now hm hb]
      exact ⟨rfl, rfl⟩
    | some body =>
      have hd : pairDeviceID r body = "" := by
        unfold pairDeviceID deviceIDFromRequest
        rw [hq, hh, hbody body hb]
        decide
      rw [handlePair_post s r now body hm hb, if_pos hd]
      exact ⟨rfl, rfl⟩
  · intro body hb hd
    rw [handlePair_post s r now body hm hb, if_pos hd]
  · intro body hb hd hc
    rw [handlePair_post s r now body hm hb, if_neg hd, if_pos hc]
  · intro hst
    have hs : (handlePair s r now).1 = s := by
      cases hb : r.pairBody with
      | none => rw [handlePair_post_undecodable s r now hm hb]
      | some body =>
        rw [handlePair_post s r now body hm hb] at hst ⊢
        split_ifs at hst ⊢ with h1 h2
        · rfl
        · rfl
        · exact absurd rfl hst
    exact ⟨hs, by rw [hs], by rw [hs]⟩

theorem handlePair_rejected_keeps_slot_witness :
    handlePair pairedServer wrongCodeRequest 5000 =
      (pairedServer, errorResponse StatusForbidden "invalid pair code") :=
  (handlePair_rejected_keeps_slot pairedServer wrongCodeRequest 5000 (by decide)).2.1
    ⟨"0000", "phone-2"⟩ rfl (by decide) (by decide)

theorem handlePair_success (s : Server) (r : Request) (now : Time) (body : PairBody)
    (hm : r.Method = MethodPost) (hb : r.pairBody = some body)
    (hd : pairDeviceID r body ≠ "") (hc : TrimSpace body.Code = s.pairCode) :
    (handlePair s r now).2.status = StatusOK ∧
      (handlePair s r now).1.pairedDeviceID = pairDeviceID r body ∧
      (handlePair s r now).1.pairedUntil = now + pairSessionTTL ∧
      (handlePair s r now).1.pairCode = s.pairCode := by
  rw [handlePair_post s r now body hm hb, if_neg hd, if_neg (not_not.mpr hc)]
  exact ⟨rfl, rfl, rfl, rfl⟩

theorem handlePair_ok_inv (s : Server) (r : Request) (now : Time) (body : PairBody)
    (hm : r.Method = MethodPost) (hb : r.pairBody = some body)
    (hok : (handlePair s r now).2.status = StatusOK) :
    pairDeviceID r body ≠ "" ∧ TrimSpace body.Code = s.pairCode := by
  rw [handlePair_post s r now body hm hb] at hok
  split_ifs at hok with h1 h2
  · exact absurd hok (show StatusBadRequest ≠ StatusOK by decide)
  · exact absurd hok (show StatusForbidden ≠ StatusOK by decide)
  · exact ⟨h1, not_not.mp h2⟩

/-- C4: from any server state, a successful pair request for `A` followed by a
successful pair request for `B`, with `A` and `B` distinct, leaves the slot
holding exactly `B` with `pairedUntil` the time of the second request plus
`pairSessionTTL`, which is 24 hours; `pairingState B` is then true up to that
instant and `pairingState A` is false at every instant.  Both ids are
non-empty, and each successful request overwrites the slot whatever it
held. -/
theorem handlePair_single_slot (s : Server) (rA rB : Request) (bA bB : PairBody)
    (nowA nowB : Time) (hmA : rA.Method = MethodPost) (hbA : rA.pairBody = some bA)
    (hmB : rB.Method = MethodPost) (hbB : rB.pairBody = some bB)
    (hokA : (handlePair s rA nowA).2.status = StatusOK)
    (hokB : (handlePair (handlePair s rA nowA).1 rB nowB).2.status = StatusOK)
    (hAB : pairDeviceID rA bA ≠ pairDeviceID rB bB) :
    (pairDeviceID rA bA ≠ "" ∧ pairDeviceID rB bB ≠ "") ∧
      (handlePair s rA nowA).1.pairedDeviceID = pairDeviceID rA bA ∧
      (handlePair s rA nowA).1.pairedUntil = nowA + pairSessionTTL ∧
      (handlePair (handlePair s rA nowA).1 rB nowB).1.pairedDeviceID = pairDeviceID rB bB ∧
      (handlePair (handlePair s rA nowA).1 rB nowB).1.pairedUntil = nowB + pairSessionTTL ∧
      pairSessionTTL = 24 * 3600 * 1000000000 ∧
      (∀ t : Time, t ≤ nowB + pairSessionTTL →
        pairingState (handlePair (handlePair s rA nowA).1 rB nowB).1 (pairDeviceID rB bB) t =
          ((handlePair (handlePair s rA nowA).1 rB nowB).1, true, nowB + pairSessionTTL)) ∧
      (∀ t : Time,
        (pairingState (handlePair (handlePair s rA nowA).1 rB nowB).1 (pairDeviceID rA bA) t).2 =
          (false, zeroTime)) := by
  obtain ⟨hA, hcA⟩ := handlePair_ok_inv s rA nowA bA hmA hbA hokA
  obtain ⟨hB, hcB⟩ := handlePair_ok_inv _ rB nowB bB hmB hbB hokB
  obtain ⟨_, a2, a3, _⟩ := handlePair_success s rA nowA bA hmA hbA hA hcA
  obtain ⟨_, b2, b3, _⟩ := handlePair_success (handlePair s rA nowA).1 rB nowB bB hmB hbB hB hcB
  generalize (handlePair (handlePair s rA nowA).1 rB nowB).1 = s2 at b2 b3 ⊢
  have hpos : nowB + pairSessionTTL ≠ 0 := by
    have : 0 < pairSessionTTL := by decide
    exact Nat.ne_of_gt (Nat.lt_of_lt_of_le this (Nat.le_add_left _ _))
  refine ⟨⟨hA, hB⟩, a2, a3, b2, b3, by decide, ?_, ?_⟩
  · intro t ht
    rw [pairingState_eq, b2, b3]
    have hc : ¬ (pairDeviceID rB bB = "" ∨ pairDeviceID rB bB = "" ∨
        nowB + pairSessionTTL = 0) := by tauto
    rw [if_neg hc, if_neg (Nat.not_lt.mpr ht), if_pos rfl]
  · intro t
    rw [pairingState_eq, b2]
    split_ifs <;> rfl

theorem handlePair_single_slot_witness :
    (handlePair (handlePair pairedServer pairRequestNoToken 5000).1 pairRequestSecond
        6000).1.pairedDeviceID = "phone-2" ∧
      (pairingState (handlePair (handlePair pairedServer pairRequestNoToken 5000).1
        pairRequestSecond 6000).1 "phone-1" 6001).2 = (false, zeroTime) :=
  have h := handlePair_single_slot pairedServer pairRequestNoToken pairRequestSecond
    ⟨"4821", "phone-1"⟩ ⟨" 4821", ""⟩ 5000 6000 (by decide) rfl (by decide) rfl (by decide)
    (by decide) (by decide)
  ⟨h.2.2.2.1, h.2.2.2.2.2.2.2 6001⟩

/-! ## The realtime endpoint: the claims -/

/-- C2: `handleWebSocket` serves a connection only if `isTokenAuthorized` is
true and `pairingState` of the request's device id is true; when the token
check fails the request is refused with 401 and the world is untouched; when
the token is valid and the device is not paired it is refused with 403, the
held connection and its client address are unchanged, nothing is closed,
nothing is written and no injector operation runs. -/
theorem handleWebSocket_gate (env : Env) (w : World) (r : Request) (now : Time)
    (upgrade : Option Conn) (frames : List (Option Message)) :
    (∀ conn, (handleWebSocket env w r now upgrade frames).2 = WsResult.served conn →
        isTokenAuthorized w.server r = true ∧
          (pairingState w.server (deviceIDFromRequest r) now).2.1 = true) ∧
      (isTokenAuthorized w.server r = false →
        handleWebSocket env w r now upgrade frames =
          (w, WsResult.refused StatusUnauthorized "unauthorized")) ∧
      (isTokenAuthorized w.server r = true →
        (pairingState w.server (deviceIDFromRequest r) now).2.1 = false →
        (handleWebSocket env w r now upgrade frames).2 =
            WsResult.refused StatusForbidden "pair required" ∧
          (handleWebSocket env w r now upgrade frames).1.server.conn = w.server.conn ∧
          (handleWebSocket env w r now upgrade frames).1.server.clientAddr =
            w.server.clientAddr ∧
          (handleWebSocket env w r now upgrade frames).1.closed = w.closed ∧
          (handleWebSocket env w r now upgrade frames).1.injected = w.injected ∧
          (handleWebSocket env w r now upgrade frames).1.apiCalls = w.apiCalls ∧
          (handleWebSocket env w r now upgrade frames).1.sent = w.sent) := by
  unfold handleWebSocket isClientPaired
  cases ha : isTokenAuthorized w.server r with
  | false =>
    refine ⟨?_, ?_, ?_⟩
    · intro conn h
      simp at h
    · intro _
      rfl
    · intro h
      cases h
  | true =>
    cases hp : (pairingState w.server (deviceIDFromRequest r) now).2.1 with
    | false =>
      refine ⟨?_, ?_, ?_⟩
      · intro conn h
        simp [hp] at h
      · intro h
        cases h
      · intro _ _
        simp only [Bool.not_true, Bool.false_eq_true, if_false, hp, Bool.not_false, if_true]
        exact ⟨trivial, (pairingState_conn _ _ _).1, (pairingState_conn _ _ _).2, trivial,
          trivial, trivial, trivial⟩
    | true =>
      refine ⟨?_, ?_, ?_⟩
      · intro _ _
        exact ⟨rfl, rfl⟩
      · intro h
        cases h
      · intro _ h
        cases h

theorem handleWebSocket_gate_witness :
    (handleWebSocket helloEnv (worldOf pairedServer) upgradeRequest 5000 (some 7)
        [some helloTidy]).2 = WsResult.refused StatusForbidden "pair required" ∧
      handleWebSocket helloEnv (worldOf pairedServer) emptyRequest 5000 (some 7)
        [some helloTidy] =
          (worldOf pairedServer, WsResult.refused StatusUnauthorized "unauthorized") :=
  ⟨((handleWebSocket_gate helloEnv (worldOf pairedServer) upgradeRequest 5000 (some 7)
      [some helloTidy]).2.2 (by decide) (by decide)).1,
    (handleWebSocket_gate helloEnv (worldOf pairedServer) emptyRequest 5000 (some 7)
      [some helloTidy]).2.1 (by decide)⟩

/-- The gate can be passed: the paired device with the right token is served,
and its message reaches the injector. -/
theorem handleWebSocket_serves_paired_device :
    handleWebSocket helloEnv (worldOf pairedServer)
        { upgradeRequest with queryDeviceID := "phone-1" } 5000 (some 7)
        [some ⟨"text", "hello", ""⟩] =
      ({ server := pairedServer, closed := [7],
         injected := [InjectorOp.TypeText "hello", InjectorOp.PressEnter], apiCalls := [],
         sent := [(7, [("type", "ack"), ("text", "hello"), ("original", "hello"),
           ("mode", "raw"), ("status", "sent")])] },
        WsResult.served 7) := by
  decide

/-! ## The text workflows -/

/-- `Process` touches nothing but the log of prompts. -/
theorem Process_frame (env : Env) (w : World) (text : String) (mode : AIMode) :
    (Process env w text mode).1.server = w.server ∧
      (Process env w text mode).1.closed = w.closed ∧
      (Process env w text mode).1.injected = w.injected ∧
      (Process env w text mode).1.sent = w.sent := by
  unfold Process
  split_ifs <;> exact ⟨rfl, rfl, rfl, rfl⟩

theorem Process_available (env : Env) (w : World) (text : String) (mode : AIMode)
    (hm : mode ≠ ModeRaw) (ha : IsAvailable w.server.ai = true) :
    (Process env w text mode).2 =
      if TrimSpace text = "" then (text, none)
      else env.callAPI w.apiCalls w.server.ai (buildPrompt text mode) := by
  unfold Process
  simp only [ha, Bool.not_true, Bool.false_eq_true, if_false, hm, false_or]
  split_ifs <;> rfl

theorem aiWorkflow_frame (env : Env) (w : World) (conn : Conn) (text : String)
    (mode : AIMode) :
    (aiWorkflow env w conn text mode).server = w.server ∧
      (aiWorkflow env w conn text mode).closed = w.closed ∧
      (aiWorkflow env w conn text mode).injected = w.injected := by
  unfold aiWorkflow
  simp only
  obtain ⟨h1, h2, h3, _⟩ := Process_frame env
    (WriteJSON w conn [("type", "processing"), ("text", text), ("status", "ai_processing")])
    text mode
  generalize Process env
    (WriteJSON w conn [("type", "processing"), ("text", text), ("status", "ai_processing")])
    text mode = res at h1 h2 h3 ⊢
  obtain ⟨w2, processed, err⟩ := res
  cases err with
  | none => exact ⟨h1, h2, h3⟩
  | some e => exact ⟨h1, h2, h3⟩

theorem aiWorkflow_sent (env : Env) (w : World) (conn : Conn) (text : String)
    (mode : AIMode) :
    (aiWorkflow env w conn text mode).sent =
      w.sent ++ [(conn, [("type", "processing"), ("text", text), ("status", "ai_processing")]),
        (conn,
          match (Process env (WriteJSON w conn
              [("type", "processing"), ("text", text), ("status", "ai_processing")])
              text mode).2.2 with
          | some err => [("type", "ai_error"), ("error", err)]
          | none =>
            [("type", "ai_preview"),
              ("text", (Process env (WriteJSON w conn
                [("type", "processing"), ("text", text), ("status", "ai_processing")])
                text mode).2.1),
              ("original", text), ("mode", mode)])] := by
  unfold aiWorkflow
  simp only
  obtain ⟨_, _, _, h4⟩ := Process_frame env
    (WriteJSON w conn [("type", "processing"), ("text", text), ("status", "ai_processing")])
    text mode
  generalize Process env
    (WriteJSON w conn [("type", "processing"), ("text", text), ("status", "ai_processing")])
    text mode = res at h4 ⊢
  obtain ⟨w2, processed, err⟩ := res
  have h5 : w2.sent = w.sent ++
      [(conn, [("type", "processing"), ("text", text), ("status", "ai_processing")])] := h4
  cases err with
  | none =>
    show w2.sent ++ [(conn, _)] = _
    rw [h5]
    simp
  | some e =>
    show w2.sent ++ [(conn, _)] = _
    rw [h5]
    simp

/-- The logs of the direct-commit workflow: the first injector operation types
the text, Enter follows only after a successful typing, one object is written,
an `error` or an `ack`, and the transform service is not called. -/
theorem directCommit_logs (env : Env) (w : World) (conn : Conn) (out text : String)
    (mode : AIMode) :
    (∃ rest, (directCommit env w conn out text mode).injected =
        w.injected ++ InjectorOp.TypeText out :: rest) ∧
      (∃ e rest, (directCommit env w conn out text mode).sent = w.sent ++ [(conn, e)] ∧
        (e = ("type", "error") :: rest ∨ e = ("type", "ack") :: rest)) ∧
      (directCommit env w conn out text mode).apiCalls = w.apiCalls := by
  unfold directCommit inject
  simp only
  cases h1 : env.inject w.injected (InjectorOp.TypeText out) with
  | some err =>
    exact ⟨⟨[], rfl⟩, ⟨_, _, rfl, Or.inl rfl⟩, rfl⟩
  | none =>
    simp only
    cases h2 : env.inject (w.injected ++ [InjectorOp.TypeText out]) InjectorOp.PressEnter with
    | some err =>
      refine ⟨⟨[InjectorOp.PressEnter], ?_⟩, ⟨_, _, rfl, Or.inl rfl⟩, rfl⟩
      simp [WriteJSON]
    | none =>
      refine ⟨⟨[InjectorOp.PressEnter], ?_⟩, ⟨_, _, rfl, Or.inr rfl⟩, rfl⟩
      simp [WriteJSON]

theorem dispatch_text (env : Env) (w : World) (conn : Conn) (msg : Message)
    (ht : msg.Type_ = "text") (hne : msg.Text ≠ "") :
    dispatch env w conn msg =
      if effectiveMode msg ≠ ModeRaw ∧ IsAvailable w.server.ai = true then
        aiWorkflow env w conn msg.Text (effectiveMode msg)
      else directCommit env w conn msg.Text msg.Text (effectiveMode msg) := by
  unfold dispatch
  simp only [ht, hne, if_true, ne_eq, not_false_eq_true]

/-- C9: for a message of type `text` with non-empty text, the dispatcher runs
the AI workflow (its first written object is `processing`, echoing the text)
if and only if the mode, raw when absent, is not raw and the transform service
is available; in every other case, and only then, it runs the direct-commit
workflow, whose first injector operation types the received text unmodified.
So mode raw, or an absent mode, direct-commits whatever the availability, and
any mode direct-commits the received text when the service is unavailable. -/
theorem dispatch_text_routing (env : Env) (w : World) (conn : Conn) (msg : Message)
    (ht : msg.Type_ = "text") (hne : msg.Text ≠ "") :
    ((effectiveMode msg ≠ ModeRaw ∧ IsAvailable w.server.ai = true) →
        dispatch env w conn msg = aiWorkflow env w conn msg.Text (effectiveMode msg)) ∧
      (¬ (effectiveMode msg ≠ ModeRaw ∧ IsAvailable w.server.ai = true) →
        dispatch env w conn msg =
          directCommit env w conn msg.Text msg.Text (effectiveMode msg)) ∧
      ((effectiveMode msg ≠ ModeRaw ∧ IsAvailable w.server.ai = true) ↔
        ∃ rest, (dispatch env w conn msg).sent =
          w.sent ++ (conn, [("type", "processing"), ("text", msg.Text),
            ("status", "ai_processing")]) :: rest) ∧
      (¬ (effectiveMode msg ≠ ModeRaw ∧ IsAvailable w.server.ai = true) ↔
        ∃ rest, (dispatch env w conn msg).injected =
          w.injected ++ InjectorOp.TypeText msg.Text :: rest) ∧
      (msg.Mode = "raw" ∨ msg.Mode = "" →
        ∃ rest, (dispatch env w conn msg).injected =
          w.injected ++ InjectorOp.TypeText msg.Text :: rest) ∧
      (IsAvailable w.server.ai = false →
        ∃ rest, (dispatch env w conn msg).injected =
          w.injected ++ InjectorOp.TypeText msg.Text :: rest) := by
  have hd := dispatch_text env w conn msg ht hne
  have hai : (effectiveMode msg ≠ ModeRaw ∧ IsAvailable w.server.ai = true) →
      dispatch env w conn msg = aiWorkflow env w conn msg.Text (effectiveMode msg) := by
    intro h
    rw [hd, if_pos h]
  have hdc : ¬ (effectiveMode msg ≠ ModeRaw ∧ IsAvailable w.server.ai = true) →
      dispatch env w conn msg =
        directCommit env w conn msg.Text msg.Text (effectiveMode msg) := by
    intro h
    rw [hd, if_neg h]
  have hdcInj : ¬ (effectiveMode msg ≠ ModeRaw ∧ IsAvailable w.server.ai = true) →
      ∃ rest, (dispatch env w conn msg).injected =
        w.injected ++ InjectorOp.TypeText msg.Text :: rest := by
    intro h
    rw [hdc h]
    exact (directCommit_logs env w conn msg.Text msg.Text (effectiveMode msg)).1
  refine ⟨hai, hdc, ⟨?_, ?_⟩, ⟨hdcInj, ?_⟩, ?_, ?_⟩
  · intro h
    rw [hai h, aiWorkflow_sent]
    exact ⟨_, rfl⟩
  · rintro ⟨rest, hrest⟩
    by_contra h
    rw [hdc h] at hrest
    obtain ⟨e, tl, hsent, hkind⟩ :=
      (directCommit_logs env w conn msg.Text msg.Text (effectiveMode msg)).2.1
    rw [hsent] at hrest
    have h2 := List.append_cancel_left hrest
    simp only [List.cons.injEq, Prod.mk.injEq, true_and] at h2
    rcases hkind with hk | hk
    · rw [hk] at h2
      have h3 := h2.1
      simp only [List.cons.injEq, Prod.mk.injEq, true_and] at h3
      exact absurd h3.1 (by decide)
    · rw [hk] at h2
      have h3 := h2.1
      simp only [List.cons.injEq, Prod.mk.injEq, true_and] at h3
      exact absurd h3.1 (by decide)
  · rintro ⟨rest, hrest⟩ h
    rw [hai h, (aiWorkflow_frame env w conn msg.Text (effectiveMode msg)).2.2] at hrest
    have h2 := List.self_eq_append_right.mp hrest
    cases h2
  · intro hraw
    apply hdcInj
    intro h
    apply h.1
    unfold effectiveMode ModeRaw
    rcases hraw with hraw | hraw
    · rw [hraw]; rfl
    · rw [if_pos hraw]
  · intro hun
    apply hdcInj
    intro h
    rw [hun] at h
    exact absurd h.2 (by decide)

theorem dispatch_text_routing_witness :
    ∃ rest, (dispatch helloEnv (worldOf freshServer) 7 helloTidy).injected =
      (worldOf freshServer).injected ++ InjectorOp.TypeText "hello" :: rest :=
  (dispatch_text_routing helloEnv (worldOf freshServer) 7 helloTidy (by decide)
    (by decide)).2.2.2.2.2 (by decide)

/-- C10: in the AI workflow (type `text`, non-empty text, non-raw mode,
transform service available) the objects written are exactly `processing`,
echoing the received text with status `ai_processing`, followed by one
`ai_preview` with the result of `Process`, the received text and the mode when
`Process` returns no error, or by one `ai_error` with the error message when it
returns one; the result of `Process` is the text itself when it is blank and
the answer of the service to the built prompt otherwise; no injector operation
is invoked. -/
theorem dispatch_ai_events (env : Env) (w : World) (conn : Conn) (msg : Message)
    (ht : msg.Type_ = "text") (hne : msg.Text ≠ "")
    (hm : effectiveMode msg ≠ ModeRaw) (ha : IsAvailable w.server.ai = true) :
    (∀ processed,
        (if TrimSpace msg.Text = "" then (msg.Text, none)
          else env.callAPI w.apiCalls w.server.ai
            (buildPrompt msg.Text (effectiveMode msg))) = (processed, none) →
        (dispatch env w conn msg).sent = w.sent ++
          [(conn, [("type", "processing"), ("text", msg.Text), ("status", "ai_processing")]),
            (conn, [("type", "ai_preview"), ("text", processed), ("original", msg.Text),
              ("mode", effectiveMode msg)])]) ∧
      (∀ processed err,
        (if TrimSpace msg.Text = "" then (msg.Text, none)
          else env.callAPI w.apiCalls w.server.ai
            (buildPrompt msg.Text (effectiveMode msg))) = (processed, some err) →
        (dispatch env w conn msg).sent = w.sent ++
          [(conn, [("type", "processing"), ("text", msg.Text), ("status", "ai_processing")]),
            (conn, [("type", "ai_error"), ("error", err)])]) ∧
      (dispatch env w conn msg).injected = w.injected ∧
      (dispatch env w conn msg).server = w.server := by
  have hc : effectiveMode msg ≠ ModeRaw ∧ IsAvailable w.server.ai = true := ⟨hm, ha⟩
  rw [dispatch_text env w conn msg ht hne, if_pos hc]
  have hP := Process_available env
    (WriteJSON w conn [("type", "processing"), ("text", msg.Text), ("status", "ai_processing")])
    msg.Text (effectiveMode msg) hm ha
  have hP2 : (Process env (WriteJSON w conn
      [("type", "processing"), ("text", msg.Text), ("status", "ai_processing")])
      msg.Text (effectiveMode msg)).2 =
      if TrimSpace msg.Text = "" then (msg.Text, none)
      else env.callAPI w.apiCalls w.server.ai (buildPrompt msg.Text (effectiveMode msg)) := hP
  obtain ⟨f1, _, f3⟩ := aiWorkflow_frame env w conn msg.Text (effectiveMode msg)
  refine ⟨?_, ?_, f3, f1⟩
  · intro processed hres
    rw [aiWorkflow_sent, hP2, hres]
  · intro processed err hres
    rw [aiWorkflow_sent, hP2, hres]

theorem dispatch_ai_events_witness :
    ((dispatch helloEnv (worldOf aiServer) 7 helloTidy).sent =
        [(7, [("type", "processing"), ("text", "hello"), ("status", "ai_processing")]),
          (7, [("type", "ai_preview"), ("text", "Hello."), ("original", "hello"),
            ("mode", "tidy")])] ∧
      (dispatch helloEnv (worldOf aiServer) 7 helloTidy).injected = []) ∧
    (dispatch failingEnv (worldOf aiServer) 7 helloTidy).sent =
        [(7, [("type", "processing"), ("text", "hello"), ("status", "ai_processing")]),
          (7, [("type", "ai_error"), ("error", "API call failed")])] :=
  have h := dispatch_ai_events helloEnv (worldOf aiServer) 7 helloTidy (by decide) (by decide)
    (by decide) (by decide)
  have g := dispatch_ai_events failingEnv (worldOf aiServer) 7 helloTidy (by decide)
    (by decide) (by decide) (by decide)
  ⟨⟨h.1 "Hello." (by decide), h.2.2.1⟩, g.2.1 "" "API call failed" (by decide)⟩

/-- C11: in the direct-commit workflow (type `text`, non-empty text, mode raw
or transform service unavailable) the injector is asked to type the received
text; when that fails, one `error` object with the failure message is written
and Enter is not pressed; when typing succeeds Enter is pressed next, and when
that fails one `error` object with its failure message is written; when both
succeed one `ack` is written with status `sent`, text and original equal to
the received text, and the effective mode. -/
theorem dispatch_direct_commit (env : Env) (w : World) (conn : Conn) (msg : Message)
    (ht : msg.Type_ = "text") (hne : msg.Text ≠ "")
    (hdc : ¬ (effectiveMode msg ≠ ModeRaw ∧ IsAvailable w.server.ai = true)) :
    (∀ err, env.inject w.injected (InjectorOp.TypeText msg.Text) = some err →
        (dispatch env w conn msg).injected = w.injected ++ [InjectorOp.TypeText msg.Text] ∧
          (dispatch env w conn msg).sent =
            w.sent ++ [(conn, [("type", "error"), ("error", err)])]) ∧
      (env.inject w.injected (InjectorOp.TypeText msg.Text) = none →
        ∀ err, env.inject (w.injected ++ [InjectorOp.TypeText msg.Text])
            InjectorOp.PressEnter = some err →
          (dispatch env w conn msg).injected =
              w.injected ++ [InjectorOp.TypeText msg.Text, InjectorOp.PressEnter] ∧
            (dispatch env w conn msg).sent =
              w.sent ++ [(conn, [("type", "error"), ("error", err)])]) ∧
      (env.inject w.injected (InjectorOp.TypeText msg.Text) = none →
        env.inject (w.injected ++ [InjectorOp.TypeText msg.Text])
            InjectorOp.PressEnter = none →
          (dispatch env w conn msg).injected =
              w.injected ++ [InjectorOp.TypeText msg.Text, InjectorOp.PressEnter] ∧
            (dispatch env w conn msg).sent =
              w.sent ++ [(conn, [("type", "ack"), ("text", msg.Text), ("original", msg.Text),
                ("mode", effectiveMode msg), ("status", "sent")])]) := by
  rw [dispatch_text env w conn msg ht hne, if_neg hdc]
  unfold directCommit inject
  simp only
  refine ⟨?_, ?_, ?_⟩
  · intro err h1
    rw [h1]
    exact ⟨rfl, rfl⟩
  · intro h1 err h2
    rw [h1]
    simp only
    rw [h2]
    simp [WriteJSON]
  · intro h1 h2
    rw [h1]
    simp only
    rw [h2]
    simp [WriteJSON]

theorem dispatch_direct_commit_witness :
    (dispatch enterFailsEnv (worldOf aiServer) 7 helloRaw).injected =
        [InjectorOp.TypeText "hello", InjectorOp.PressEnter] ∧
      (dispatch enterFailsEnv (worldOf aiServer) 7 helloRaw).sent =
        [(7, [("type", "error"), ("error", "SendInput (key 0xD) failed")])] :=
  (dispatch_direct_commit enterFailsEnv (worldOf aiServer) 7 helloRaw (by decide) (by decide)
    (by decide)).2.1 (by decide) "SendInput (key 0xD) failed" (by decide)

/-! ## Commands and ignored frames -/

/-- One command case: the operation is invoked once and one object is
written. -/
theorem runCommand_logs (env : Env) (w : World) (conn : Conn) (op : InjectorOp)
    (status : String) (reset : Bool) :
    (runCommand env w conn op status reset).injected = w.injected ++ [op] ∧
      (runCommand env w conn op status reset).sent =
        w.sent ++ [(conn,
          match env.inject w.injected op with
          | some err => [("type", "error"), ("error", err)]
          | none => [("type", "ack"), ("status", status)])] := by
  unfold runCommand inject
  simp only
  cases h : env.inject w.injected op with
  | some err => exact ⟨rfl, rfl⟩
  | none =>
    cases reset <;> exact ⟨rfl, rfl⟩

theorem dispatch_of_command (env : Env) (w : World) (conn : Conn) (msg : Message)
    (ht : msg.Type_ = "command") :
    dispatch env w conn msg = command env w conn msg.Text := by
  have hne : ¬ ("command" = "text") := by decide
  unfold dispatch
  simp only [ht, hne, if_false, if_true]

/-- C12: for a message of type `command` whose text is one of the seven known
commands, exactly one injector operation is invoked, the one assigned to the
command, and exactly one object is written: `error` with the failure message
when the operation failed, otherwise `ack` whose status is `cleared` for
`clear` and the command name for the other six. -/
theorem dispatch_command (env : Env) (w : World) (conn : Conn) (msg : Message)
    (ht : msg.Type_ = "command") :
    ∀ t ∈ [("clear", InjectorOp.SelectAllAndDelete, "cleared"),
        ("enter", InjectorOp.PressEnter, "enter"),
        ("shift_enter", InjectorOp.PressShiftEnter, "shift_enter"),
        ("ctrl_z", InjectorOp.PressCtrlZ, "ctrl_z"),
        ("ctrl_v", InjectorOp.PressCtrlV, "ctrl_v"),
        ("tab", InjectorOp.PressTab, "tab"),
        ("escape", InjectorOp.PressEscape, "escape")],
      msg.Text = t.1 →
        (dispatch env w conn msg).injected = w.injected ++ [t.2.1] ∧
          (dispatch env w conn msg).sent =
            w.sent ++ [(conn,
              match env.inject w.injected t.2.1 with
              | some err => [("type", "error"), ("error", err)]
              | none => [("type", "ack"), ("status", t.2.2)])] := by
  intro t hmem htext
  rw [dispatch_of_command env w conn msg ht, htext]
  simp only [List.mem_cons, List.mem_singleton, List.not_mem_nil, or_false] at hmem
  rcases hmem with rfl | rfl | rfl | rfl | rfl | rfl | rfl <;>
    exact runCommand_logs env w conn _ _ _

theorem dispatch_command_witness :
    (dispatch helloEnv (worldOf freshServer) 7 ⟨"command", "clear", ""⟩).injected =
        [InjectorOp.SelectAllAndDelete] ∧
      (dispatch helloEnv (worldOf freshServer) 7 ⟨"command", "clear", ""⟩).sent =
        [(7, [("type", "ack"), ("status", "cleared")])] :=
  dispatch_command helloEnv (worldOf freshServer) 7 ⟨"command", "clear", ""⟩ rfl
    ("clear", InjectorOp.SelectAllAndDelete, "cleared") (by decide) rfl

/-- C13: a frame that is not valid JSON, a message whose type is neither `text`
nor `command`, and a command whose text is none of the seven known commands
leave the world as it was (nothing written, no injector operation, the held
connection and the pairing slot unchanged), and the read loop goes on with the
next frame. -/
theorem readLoop_ignores (env : Env) (conn : Conn) (w : World)
    (rest : List (Option Message)) :
    readLoop env conn w (none :: rest) = readLoop env conn w rest ∧
      (∀ msg : Message, msg.Type_ ≠ "text" → msg.Type_ ≠ "command" →
        dispatch env w conn msg = w ∧
          readLoop env conn w (some msg :: rest) = readLoop env conn w rest) ∧
      (∀ msg : Message, msg.Type_ = "command" →
        msg.Text ∉ ["clear", "enter", "shift_enter", "ctrl_z", "ctrl_v", "tab", "escape"] →
        dispatch env w conn msg = w ∧
          readLoop env conn w (some msg :: rest) = readLoop env conn w rest) := by
  refine ⟨rfl, ?_, ?_⟩
  · intro msg h1 h2
    have hd : dispatch env w conn msg = w := by
      unfold dispatch
      rw [if_neg h1, if_neg h2]
    exact ⟨hd, by rw [readLoop, hd]⟩
  · intro msg ht hnot
    have hd : dispatch env w conn msg = w := by
      rw [dispatch_of_command env w conn msg ht]
      simp only [List.mem_cons, List.mem_singleton, List.not_mem_nil, or_false,
        not_or] at hnot
      obtain ⟨h1, h2, h3, h4, h5, h6, h7⟩ := hnot
      unfold command
      rw [if_neg h1, if_neg h2, if_neg h3, if_neg h4, if_neg h5, if_neg h6, if_neg h7]
    exact ⟨hd, by rw [readLoop, hd]⟩

theorem readLoop_ignores_witness :
    readLoop helloEnv 7 (worldOf pairedServer)
        [none, some ⟨"ping", "x", ""⟩, some ⟨"command", "reboot", ""⟩] =
      worldOf pairedServer :=
  have h1 := (readLoop_ignores helloEnv 7 (worldOf pairedServer)
    [some ⟨"ping", "x", ""⟩, some ⟨"command", "reboot", ""⟩]).1
  have h2 := ((readLoop_ignores helloEnv 7 (worldOf pairedServer)
    [some ⟨"command", "reboot", ""⟩]).2.1 ⟨"ping", "x", ""⟩ (by decide) (by decide)).2
  have h3 := ((readLoop_ignores helloEnv 7 (worldOf pairedServer) []).2.2
    ⟨"command", "reboot", ""⟩ rfl (by decide)).2
  h1.trans (h2.trans h3)

/-! ## Connection hub: the claims -/

theorem acceptConn_conn (w : World) (c : Conn) (r : Request) :
    (acceptConn w c r).server.conn = some c ∧
      (acceptConn w c r).server.clientAddr = r.RemoteAddr := by
  unfold acceptConn
  cases w.server.conn <;> exact ⟨rfl, rfl⟩

theorem acceptConn_closed (w : World) (c : Conn) (r : Request) :
    (acceptConn w c r).closed = w.closed ++ w.server.conn.toList := by
  unfold acceptConn
  cases w.server.conn <;> simp

theorem releaseConn_closed (w : World) (c : Conn) :
    (releaseConn w c).closed = w.closed ++ [c] := by
  unfold releaseConn
  split_ifs <;> rfl

theorem releaseConn_conn (w : World) (c : Conn) :
    (releaseConn w c).server.conn = if w.server.conn = some c then none else w.server.conn := by
  unfold releaseConn
  split_ifs <;> rfl

/-- Every connection accepted so far is the held one or has been closed; the
property is kept by every hub event. -/
theorem hubRun_inv (steps : List HubStep) : ∀ (w : World) (acc : List Conn),
    (∀ c ∈ acc, w.server.conn = some c ∨ c ∈ w.closed) →
    ∀ c, c ∈ acc ∨ c ∈ acceptedConns steps →
      (hubRun w steps).server.conn = some c ∨ c ∈ (hubRun w steps).closed := by
  induction steps with
  | nil =>
    intro w acc hinv c hc
    rcases hc with hc | hc
    · exact hinv c hc
    · simp [acceptedConns] at hc
  | cons st rest ih =>
    intro w acc hinv c hc
    cases st with
    | accept conn r =>
      simp only [hubRun, hubStep]
      apply ih (acceptConn w conn r) (conn :: acc)
      · intro d hd
        rw [(acceptConn_conn w conn r).1, acceptConn_closed]
        rcases List.mem_cons.mp hd with hd | hd
        · left; rw [hd]
        · rcases hinv d hd with h | h
          · right
            rw [h]
            simp
          · right
            exact List.mem_append_left _ h
      · rcases hc with hc | hc
        · left; exact List.mem_cons_of_mem _ hc
        · simp only [acceptedConns, List.mem_cons] at hc
          rcases hc with hc | hc
          · left; rw [hc]; exact List.mem_cons_self _ _
          · right; exact hc
    | teardown conn =>
      simp only [hubRun, hubStep]
      apply ih (releaseConn w conn) acc
      · intro d hd
        rw [releaseConn_conn, releaseConn_closed]
        rcases hinv d hd with h | h
        · by_cases hcd : w.server.conn = some conn
          · right
            rw [h] at hcd
            simp only [Option.some.injEq] at hcd
            rw [hcd]
            simp
          · left
            rw [if_neg hcd]
            exact h
        · right
          exact List.mem_append_left _ h
      · rcases hc with hc | hc
        · left; exact hc
        · right
          simpa [acceptedConns] using hc

/-- C14: over every sequence of accepts and teardowns, from any state of the
server, every accepted connection is the held one or has been closed,
so at most one accepted connection is not closed; and an accept while another
connection is held closes that one first, in a state where it is still the
held one, and only then stores the new connection and its address. -/
theorem hubRun_single_connection (w : World) (steps : List HubStep) :
    (∀ c ∈ acceptedConns steps,
        (hubRun w steps).server.conn = some c ∨ c ∈ (hubRun w steps).closed) ∧
      (∀ c1 ∈ acceptedConns steps, ∀ c2 ∈ acceptedConns steps,
        c1 ∉ (hubRun w steps).closed → c2 ∉ (hubRun w steps).closed → c1 = c2) ∧
      (∀ (v : World) (c old : Conn) (r : Request), v.server.conn = some old →
        ∃ v1 : World, v1.server = v.server ∧ v1.closed = v.closed ++ [old] ∧
          acceptConn v c r =
            { v1 with server := { v1.server with conn := some c, clientAddr := r.RemoteAddr } }) := by
  have hall : ∀ c ∈ acceptedConns steps,
      (hubRun w steps).server.conn = some c ∨ c ∈ (hubRun w steps).closed := by
    intro c hc
    exact hubRun_inv steps w [] (by intro d hd; cases hd) c (Or.inr hc)
  refine ⟨hall, ?_, ?_⟩
  · intro c1 h1 c2 h2 n1 n2
    rcases hall c1 h1 with a1 | a1
    · rcases hall c2 h2 with a2 | a2
      · rw [a1] at a2
        exact Option.some.inj a2
      · exact absurd a2 n2
    · exact absurd a1 n1
  · intro v c old r hold
    refine ⟨{ v with closed := v.closed ++ [old] }, rfl, rfl, ?_⟩
    unfold acceptConn
    rw [hold]

theorem hubRun_single_connection_witness :
    ∀ c ∈ acceptedConns [HubStep.accept 1 emptyRequest, HubStep.accept 2 emptyRequest,
        HubStep.teardown 1],
      (hubRun (worldOf freshServer) [HubStep.accept 1 emptyRequest,
          HubStep.accept 2 emptyRequest, HubStep.teardown 1]).server.conn = some c ∨
        c ∈ (hubRun (worldOf freshServer) [HubStep.accept 1 emptyRequest,
          HubStep.accept 2 emptyRequest, HubStep.teardown 1]).closed :=
  (hubRun_single_connection (worldOf freshServer) [HubStep.accept 1 emptyRequest,
    HubStep.accept 2 emptyRequest, HubStep.teardown 1]).1

/-- C15: the teardown of a handler clears the held connection and the client
address when the held connection is the handler's own, and leaves the server,
so a newer held connection and its client address, exactly as it was when the
held connection is another one or none; in both cases it closes the handler's
own connection. -/
theorem releaseConn_guard (w : World) (conn : Conn) :
    (w.server.conn = some conn →
        (releaseConn w conn).server.conn = none ∧
          (releaseConn w conn).server.clientAddr = "") ∧
      (w.server.conn ≠ some conn → (releaseConn w conn).server = w.server) ∧
      (releaseConn w conn).closed = w.closed ++ [conn] := by
  refine ⟨?_, ?_, releaseConn_closed w conn⟩
  · intro h
    unfold releaseConn
    rw [if_pos h]
    exact ⟨rfl, rfl⟩
  · intro h
    unfold releaseConn
    rw [if_neg h]

theorem releaseConn_guard_witness :
    (releaseConn (hubRun (worldOf freshServer)
        [HubStep.accept 1 emptyRequest,
          HubStep.accept 2 { emptyRequest with RemoteAddr := "192.168.1.30:40000" }]) 1).server =
      { freshServer with conn := some 2, clientAddr := "192.168.1.30:40000" } :=
  ((releaseConn_guard (hubRun (worldOf freshServer)
    [HubStep.accept 1 emptyRequest,
      HubStep.accept 2 { emptyRequest with RemoteAddr := "192.168.1.30:40000" }]) 1).2.1
    (by decide)).trans (by decide)

/-! ## Address resolver: the claims -/

/-- The selection loop keeps, among what it has seen, the first candidate of
least priority value. -/
theorem pickBest_first_min (cs : List candidate) : ∀ (pre : List candidate) (b : candidate)
    (mid : List candidate), (∀ x ∈ pre, b.priority < x.priority) →
    (∀ x ∈ mid, b.priority ≤ x.priority) →
    ∃ pre2 c post, pre ++ b :: mid ++ cs = pre2 ++ c :: post ∧ pickBest b cs = c ∧
      (∀ x ∈ pre2, c.priority < x.priority) ∧ (∀ x ∈ post, c.priority ≤ x.priority) := by
  induction cs with
  | nil =>
    intro pre b mid hpre hmid
    exact ⟨pre, b, mid, by simp, rfl, hpre, hmid⟩
  | cons c cs ih =>
    intro pre b mid hpre hmid
    simp only [pickBest]
    by_cases hlt : c.priority < b.priority
    · rw [if_pos hlt]
      obtain ⟨pre2, d, post, h1, h2, h3, h4⟩ := ih (pre ++ b :: mid) c [] (by
        intro x hx
        rcases List.mem_append.mp hx with hx | hx
        · exact Nat.lt_trans hlt (hpre x hx)
        · rcases List.mem_cons.mp hx with hx | hx
          · rw [hx]; exact hlt
          · exact Nat.lt_of_lt_of_le hlt (hmid x hx)) (by intro x hx; cases hx)
      refine ⟨pre2, d, post, ?_, h2, h3, h4⟩
      rw [← h1]
      simp
    · rw [if_neg hlt]
      obtain ⟨pre2, d, post, h1, h2, h3, h4⟩ := ih pre b (mid ++ [c]) hpre (by
        intro x hx
        rcases List.mem_append.mp hx with hx | hx
        · exact hmid x hx
        · rw [List.mem_singleton.mp hx]
          exact Nat.le_of_not_lt hlt)
      refine ⟨pre2, d, post, ?_, h2, h3, h4⟩
      rw [← h1]
      simp

/-- C16: `getLanIP` returns `localhost` when the enumeration fails or yields
no candidate; otherwise it returns the address of the first candidate, in
enumeration order, whose priority value is least among all candidates.  With
an interface named `Ethernet` holding 10.0.0.5 and one named
`Docker vEthernet` holding 172.17.0.1, in either order, it returns
10.0.0.5. -/
theorem getLanIP_first_minimum (lib : Lib) (ifaces : List Interface) :
    getLanIP lib none = "localhost" ∧
      (ifaceCandidates lib ifaces = [] → getLanIP lib (some ifaces) = "localhost") ∧
      (ifaceCandidates lib ifaces ≠ [] →
        ∃ pre c post, ifaceCandidates lib ifaces = pre ++ c :: post ∧
          getLanIP lib (some ifaces) = c.ip ∧
          (∀ x ∈ pre, c.priority < x.priority) ∧ (∀ x ∈ post, c.priority ≤ x.priority)) ∧
      getLanIP lib (some [ethernetIface, dockerIface]) = "10.0.0.5" ∧
      getLanIP lib (some [dockerIface, ethernetIface]) = "10.0.0.5" := by
  refine ⟨rfl, ?_, ?_, rfl, rfl⟩
  · intro h
    unfold getLanIP
    simp only [h]
  · intro h
    cases hc : ifaceCandidates lib ifaces with
    | nil => exact absurd hc h
    | cons c cs =>
      obtain ⟨pre2, d, post, h1, h2, h3, h4⟩ := pickBest_first_min cs [] c []
        (by intro x hx; cases hx) (by intro x hx; cases hx)
      refine ⟨pre2, d, post, ?_, ?_, h3, h4⟩
      · rw [← h1]
        simp
      · unfold getLanIP
        simp only [hc]
        rw [h2]

theorem getLanIP_first_minimum_witness :
    ∃ pre c post, ifaceCandidates plainLib [dockerIface, ethernetIface] = pre ++ c :: post ∧
      getLanIP plainLib (some [dockerIface, ethernetIface]) = c.ip ∧
      (∀ x ∈ pre, c.priority < x.priority) ∧ (∀ x ∈ post, c.priority ≤ x.priority) :=
  (getLanIP_first_minimum plainLib [dockerIface, ethernetIface]).2.2.1 (by decide)

/-- C17, counterexample: the name `vethernet (default switch)` contains the
physical keywords `ethernet` and `eth`, and its priority is 90, not 10. -/
theorem classifyInterface_vethernet :
    "ethernet" ∈ physicalKeywords ∧ "eth" ∈ physicalKeywords ∧
      Contains "vethernet (default switch)" "ethernet" = true ∧
      Contains "vethernet (default switch)" "eth" = true ∧
      classifyInterface "vethernet (default switch)" = 90 := by
  decide

/-- C17, amended: `classifyInterface` returns 90 when the name contains a
virtual keyword, 10 when it contains no virtual keyword and contains a physical
keyword, and 50 otherwise, so the result is always one of 90, 10, 50; a name
that matches a physical pattern, such as `ethernet` or `eth`, and no virtual
pattern is given priority 10. -/
theorem classifyInterface_priority (name : String) :
    ((∃ kw ∈ virtualKeywords, Contains name kw = true) → classifyInterface name = 90) ∧
      ((¬ ∃ kw ∈ virtualKeywords, Contains name kw = true) →
        (∃ kw ∈ physicalKeywords, Contains name kw = true) → classifyInterface name = 10) ∧
      ((¬ ∃ kw ∈ virtualKeywords, Contains name kw = true) →
        (¬ ∃ kw ∈ physicalKeywords, Contains name kw = true) → classifyInterface name = 50) ∧
      (classifyInterface name = 90 ∨ classifyInterface name = 10 ∨
        classifyInterface name = 50) := by
  have hv : (virtualKeywords.any fun kw => Contains name kw) = true ↔
      ∃ kw ∈ virtualKeywords, Contains name kw = true := List.any_eq_true
  have hp : (physicalKeywords.any fun kw => Contains name kw) = true ↔
      ∃ kw ∈ physicalKeywords, Contains name kw = true := List.any_eq_true
  unfold classifyInterface
  refine ⟨?_, ?_, ?_, ?_⟩
  · intro h
    rw [if_pos (hv.mpr h)]
  · intro h1 h2
    rw [if_neg (fun h => h1 (hv.mp h)), if_pos (hp.mpr h2)]
  · intro h1 h2
    rw [if_neg (fun h => h1 (hv.mp h)), if_neg (fun h => h2 (hp.mp h))]
  · split_ifs
    · exact Or.inl rfl
    · exact Or.inr (Or.inl rfl)
    · exact Or.inr (Or.inr rfl)

theorem classifyInterface_priority_witness :
    classifyInterface "ethernet 2" = 10 :=
  (classifyInterface_priority "ethernet 2").2.1 (by decide) ⟨"eth", by decide, by decide⟩

/-- Every candidate of one interface comes from one of its `*net.IPNet`
addresses that is an IPv4 address, not loopback and not link-local. -/
theorem addrCandidates_sound (lib : Lib) (prio : Nat) (addrs : List Addr) :
    ∀ c ∈ addrCandidates lib prio addrs, ∃ ip, Addr.IPNet ip ∈ addrs ∧ To4 ip ≠ [] ∧
      IsLoopback ip = false ∧ ¬ ((To4 ip).getD 0 0 = 169 ∧ (To4 ip).getD 1 0 = 254) ∧
      c = ⟨IPString lib (To4 ip), prio⟩ := by
  induction addrs with
  | nil => intro c hc; simp [addrCandidates] at hc
  | cons a rest ih =>
    intro c hc
    cases a with
    | other =>
      simp only [addrCandidates] at hc
      obtain ⟨ip, h1, h2⟩ := ih c hc
      exact ⟨ip, List.mem_cons_of_mem _ h1, h2⟩
    | IPNet ip =>
      simp only [addrCandidates] at hc
      split_ifs at hc with h1 h2
      · obtain ⟨ip2, h3, h4⟩ := ih c hc
        exact ⟨ip2, List.mem_cons_of_mem _ h3, h4⟩
      · obtain ⟨ip2, h3, h4⟩ := ih c hc
        exact ⟨ip2, List.mem_cons_of_mem _ h3, h4⟩
      · rcases List.mem_cons.mp hc with hc | hc
        · refine ⟨ip, List.mem_cons_self _ _, fun h => h1 (Or.inl h), ?_, h2, hc⟩
          cases hl : IsLoopback ip with
          | false => rfl
          | true => exact absurd (Or.inr hl) h1
        · obtain ⟨ip2, h3, h4⟩ := ih c hc
          exact ⟨ip2, List.mem_cons_of_mem _ h3, h4⟩

/-- Every candidate comes from an interface that is up and not loopback. -/
theorem ifaceCandidates_sound (lib : Lib) (ifaces : List Interface) :
    ∀ c ∈ ifaceCandidates lib ifaces, ∃ iface ∈ ifaces,
      iface.Flags &&& FlagUp ≠ 0 ∧ iface.Flags &&& FlagLoopback = 0 ∧
      ∃ addrs, iface.addrs = some addrs ∧
        c ∈ addrCandidates lib (classifyInterface (ToLower lib iface.Name)) addrs := by
  induction ifaces with
  | nil => intro c hc; simp [ifaceCandidates] at hc
  | cons iface rest ih =>
    intro c hc
    simp only [ifaceCandidates] at hc
    split_ifs at hc with h1
    · obtain ⟨i2, h2, h3⟩ := ih c hc
      exact ⟨i2, List.mem_cons_of_mem _ h2, h3⟩
    · cases ha : iface.addrs with
      | none =>
        rw [ha] at hc
        obtain ⟨i2, h2, h3⟩ := ih c hc
        exact ⟨i2, List.mem_cons_of_mem _ h2, h3⟩
      | some addrs =>
        rw [ha] at hc
        rcases List.mem_append.mp hc with hc | hc
        · refine ⟨iface, List.mem_cons_self _ _, fun h => h1 (Or.inl h), ?_, addrs, ha, hc⟩
          by_contra h
          exact h1 (Or.inr h)
        · obtain ⟨i2, h2, h3⟩ := ih c hc
          exact ⟨i2, List.mem_cons_of_mem _ h2, h3⟩

/-- C18, the code at the failing input: an interface that is up, not loopback
and lacks the multicast flag contributes its address, and `getLanIP` returns
it. -/
theorem getLanIP_without_multicast :
    noMulticastIface.Flags &&& FlagMulticast = 0 ∧
      ifaceCandidates plainLib [noMulticastIface] = [⟨"10.0.0.5", 10⟩] ∧
      getLanIP plainLib (some [noMulticastIface]) = "10.0.0.5" := by
  decide

/-! ## Identity manager: the claims -/

theorem ipMatch_iff (lib : Lib) (x : X509Cert) (lanIP : String) :
    ipMatch lib x lanIP = true ↔ ∃ ip ∈ x.IPAddresses, IPString lib ip = lanIP := by
  unfold ipMatch
  rw [List.any_eq_true]
  constructor
  · rintro ⟨ip, h1, h2⟩
    exact ⟨ip, h1, by simpa using h2⟩
  · rintro ⟨ip, h1, h2⟩
    exact ⟨ip, h1, by simpa using h2⟩

theorem To4_length (ip : IP) (h : To4 ip ≠ []) : (To4 ip).length = 4 := by
  unfold To4 at h ⊢
  split_ifs at h ⊢ with h1 h2
  · exact h1
  · rw [List.length_drop, h2.1]
  · exact absurd rfl h

/-- The stored form of an address prints as the address does. -/
theorem IPString_marshalIP (lib : Lib) (ip : IP) :
    IPString lib (marshalIP ip) = IPString lib ip := by
  unfold marshalIP
  by_cases h : To4 ip = []
  · rw [if_neg (not_not.mpr h)]
  · rw [if_pos h]
    have h4 := To4_length ip h
    have hidem : To4 (To4 ip) = To4 ip := by
      generalize To4 ip = y at h4
      unfold To4
      rw [if_pos h4]
    have hne : ip.length ≠ 0 := by
      intro h0
      have : ip = [] := List.length_eq_zero.mp h0
      rw [this] at h
      exact h (by decide)
    unfold IPString
    rw [hidem]
    simp only [h4, hne, if_true, if_false]
    rw [if_neg (by omega)]

theorem truncSec_bounds (t : Time) : truncSec t ≤ t ∧ t < truncSec t + second :=
  ⟨Nat.div_mul_le_self t second, Nat.lt_div_mul_add (by decide)⟩

/-- C19, counterexample: the persisted identity was generated for the address
`localhost`, carries `localhost` among its DNS names and has not expired, yet
for the address `localhost` it is not returned: a new identity is generated,
and no IP address among the SANs of the new identity is `localhost`; its
not-after is also not 365 days after the clock reading but the whole second
below that. -/
theorem generateSelfSignedCert_skips_localhost :
    LoadX509KeyPair staleDisk =
        some ⟨[encodeCertificate (certTemplate plainLib "localhost" 1000000000500
          1000000000900) 1], some 1⟩ ∧
      "localhost" ∈ (encodeCertificate (certTemplate plainLib "localhost" 1000000000500
        1000000000900) 1).cert.DNSNames ∧
      Before 2000000000007 (encodeCertificate (certTemplate plainLib "localhost"
        1000000000500 1000000000900) 1).cert.NotAfter = true ∧
      generateSelfSignedCert (x509Env 2) staleDisk "localhost" 2000000000007 2000000000008
          2000000000009 =
        (⟨some (encodeCertificate (certTemplate plainLib "localhost" 2000000000008
            2000000000009) 2), some 2⟩,
          ⟨[encodeCertificate (certTemplate plainLib "localhost" 2000000000008
            2000000000009) 2], some 2⟩, none) ∧
      (encodeCertificate (certTemplate plainLib "localhost" 2000000000008
        2000000000009) 2).cert.IPAddresses = [[127, 0, 0, 1]] ∧
      ipMatch plainLib (encodeCertificate (certTemplate plainLib "localhost" 2000000000008
        2000000000009) 2).cert "localhost" = false ∧
      (encodeCertificate (certTemplate plainLib "localhost" 2000000000008
        2000000000009) 2).cert.NotAfter ≠ 2000000000009 + 365 * 24 * hour := by
  decide

/-- C19, amended: for a persisted identity that loads and parses, if an IP
address among its SANs prints as the resolved address and the clock is before
not-after, `generateSelfSignedCert` returns the loaded certificate unchanged
and writes nothing.  If no IP address among the SANs prints as the resolved
address or the certificate has expired, it generates: when key generation,
certificate creation and key marshalling succeed it returns the new
certificate with the new key and writes both files; that certificate is valid
from now to 365 days from now, each in the whole second X.509 stores, so its
not-after lies within one second below now plus 365 days; its DNS name is
`localhost` and its IP SANs are 127.0.0.1 and, unless the resolved address is
`localhost`, the resolved address, as stored, so for an address other than
`localhost` it matches the resolved address whenever that is the text of the
address it parses to, and for `localhost` it carries 127.0.0.1 alone.  When
one of the three steps fails, the error is returned with the zero certificate
and nothing is written. -/
theorem generateSelfSignedCert_reuse_or_issue (env : CertEnv) (disk : Disk)
    (lanIP : String) (now0 now1 now2 : Time) (cert : TLSCertificate) (x : X509Cert)
    (hload : LoadX509KeyPair disk = some cert)
    (hparse : cert.Certificate.head?.bind env.ParseCertificate = some x)
    (hlib : ∀ t k der, env.CreateCertificate t k = Except.ok der →
      der = encodeCertificate t k) :
    ((∃ ip ∈ x.IPAddresses, IPString env.lib ip = lanIP) → now0 < x.NotAfter →
        generateSelfSignedCert env disk lanIP now0 now1 now2 = (disk, cert, none)) ∧
      (((¬ ∃ ip ∈ x.IPAddresses, IPString env.lib ip = lanIP) ∨ ¬ now0 < x.NotAfter) →
        (∀ priv der keyDER, env.GenerateKey = Except.ok priv →
          env.CreateCertificate (certTemplate env.lib lanIP now1 now2) priv = Except.ok der →
          env.MarshalECPrivateKey priv = Except.ok keyDER →
          generateSelfSignedCert env disk lanIP now0 now1 now2 =
              (⟨if env.writeCert = true then some der else disk.certFile,
                  if env.writeKey = true then some keyDER else disk.keyFile⟩,
                ⟨[der], some priv⟩, none) ∧
            der.PublicKey = priv ∧
            der.cert.NotBefore = truncSec now1 ∧
            der.cert.NotAfter = truncSec (now2 + 365 * 24 * hour) ∧
            der.cert.NotAfter ≤ now2 + 365 * 24 * hour ∧
            now2 + 365 * 24 * hour < der.cert.NotAfter + second ∧
            der.cert.IPAddresses =
              marshalIP (env.lib.ParseIP "127.0.0.1") ::
                (if lanIP ≠ "localhost" then [marshalIP (env.lib.ParseIP lanIP)] else []) ∧
            der.cert.DNSNames = ["localhost"] ∧
            (lanIP ≠ "localhost" → IPString env.lib (env.lib.ParseIP lanIP) = lanIP →
              ipMatch env.lib der.cert lanIP = true) ∧
            (IPString env.lib (env.lib.ParseIP "127.0.0.1") = "127.0.0.1" →
              ipMatch env.lib der.cert "127.0.0.1" = true)) ∧
        (∀ e, env.GenerateKey = Except.error e →
          generateSelfSignedCert env disk lanIP now0 now1 now2 =
            (disk, zeroCertificate, some e)) ∧
        (∀ priv e, env.GenerateKey = Except.ok priv →
          env.CreateCertificate (certTemplate env.lib lanIP now1 now2) priv = Except.error e →
          generateSelfSignedCert env disk lanIP now0 now1 now2 =
            (disk, zeroCertificate, some e)) ∧
        (∀ priv der e, env.GenerateKey = Except.ok priv →
          env.CreateCertificate (certTemplate env.lib lanIP now1 now2) priv = Except.ok der →
          env.MarshalECPrivateKey priv = Except.error e →
          generateSelfSignedCert env disk lanIP now0 now1 now2 =
            (disk, zeroCertificate, some e))) := by
  refine ⟨?_, ?_⟩
  · intro hip hnow
    unfold generateSelfSignedCert
    simp only [hload, hparse]
    rw [if_pos]
    exact ⟨(ipMatch_iff _ _ _).mpr hip, by unfold Before; exact decide_eq_true hnow⟩
  · intro hor
    have hgen : generateSelfSignedCert env disk lanIP now0 now1 now2 =
        issue env disk lanIP now1 now2 := by
      unfold generateSelfSignedCert
      simp only [hload, hparse]
      rw [if_neg]
      rintro ⟨h1, h2⟩
      rcases hor with hor | hor
      · exact hor ((ipMatch_iff _ _ _).mp h1)
      · unfold Before at h2
        exact hor (of_decide_eq_true h2)
    rw [hgen]
    refine ⟨?_, ?_, ?_, ?_⟩
    · intro priv der keyDER hk hc hm
      have hder := hlib _ _ _ hc
      have hips : der.cert.IPAddresses =
          marshalIP (env.lib.ParseIP "127.0.0.1") ::
            (if lanIP ≠ "localhost" then [marshalIP (env.lib.ParseIP lanIP)] else []) := by
        rw [hder]
        unfold encodeCertificate certTemplate
        by_cases hne : lanIP = "localhost"
        · simp [hne]
        · simp [hne]
      have hna : der.cert.NotAfter = truncSec (now2 + 365 * 24 * hour) := by
        rw [hder]
        rfl
      refine ⟨?_, by rw [hder]; rfl, by rw [hder]; rfl, hna, ?_, ?_, hips, by rw [hder]; rfl,
        ?_, ?_⟩
      · unfold issue
        simp only [hk, hc, hm]
        cases env.writeCert <;> cases env.writeKey <;> rfl
      · rw [hna]
        exact (truncSec_bounds _).1
      · rw [hna]
        exact (truncSec_bounds _).2
      · intro hne hs
        rw [ipMatch_iff, hips, if_pos hne]
        exact ⟨marshalIP (env.lib.ParseIP lanIP), by simp, by rw [IPString_marshalIP]; exact hs⟩
      · intro hs
        rw [ipMatch_iff, hips]
        exact ⟨marshalIP (env.lib.ParseIP "127.0.0.1"), by simp,
          by rw [IPString_marshalIP]; exact hs⟩
    · intro e hk
      unfold issue
      simp only [hk]
    · intro priv e hk hc
      unfold issue
      simp only [hk, hc]
    · intro priv der e hk hc hm
      unfold issue
      simp only [hk, hc, hm]

theorem generateSelfSignedCert_reuse_or_issue_witness :
    (generateSelfSignedCert (x509Env 2) staleDisk "10.0.0.5" 2000000000007 2000000000008
        2000000000009 =
        (⟨some (encodeCertificate (certTemplate plainLib "10.0.0.5" 2000000000008
            2000000000009) 2), some 2⟩,
          ⟨[encodeCertificate (certTemplate plainLib "10.0.0.5" 2000000000008
            2000000000009) 2], some 2⟩, none) ∧
      (encodeCertificate (certTemplate plainLib "10.0.0.5" 2000000000008
        2000000000009) 2).cert.NotAfter = truncSec (2000000000009 + 365 * 24 * hour) ∧
      ipMatch plainLib (encodeCertificate (certTemplate plainLib "10.0.0.5" 2000000000008
        2000000000009) 2).cert "10.0.0.5" = true) ∧
    generateSelfSignedCert (x509Env 2) staleDisk "127.0.0.1" 2000000000007 2000000000008
        2000000000009 =
      (staleDisk, ⟨[encodeCertificate (certTemplate plainLib "localhost" 1000000000500
        1000000000900) 1], some 1⟩, none) :=
  have hlib : ∀ t k der, (x509Env 2).CreateCertificate t k = Except.ok der →
      der = encodeCertificate t k := fun _ _ _ h => (Except.ok.inj h).symm
  have h := (generateSelfSignedCert_reuse_or_issue (x509Env 2) staleDisk "10.0.0.5"
    2000000000007 2000000000008 2000000000009
    ⟨[encodeCertificate (certTemplate plainLib "localhost" 1000000000500 1000000000900) 1],
      some 1⟩
    (encodeCertificate (certTemplate plainLib "localhost" 1000000000500 1000000000900) 1).cert
    (by decide) (by decide) hlib).2 (Or.inl (by decide))
  have g := h.1 2
    (encodeCertificate (certTemplate plainLib "10.0.0.5" 2000000000008 2000000000009) 2) 2
    rfl rfl rfl
  have r := (generateSelfSignedCert_reuse_or_issue (x509Env 2) staleDisk "127.0.0.1"
    2000000000007 2000000000008 2000000000009
    ⟨[encodeCertificate (certTemplate plainLib "localhost" 1000000000500 1000000000900) 1],
      some 1⟩
    (encodeCertificate (certTemplate plainLib "localhost" 1000000000500 1000000000900) 1).cert
    (by decide) (by decide) hlib).1 ⟨[127, 0, 0, 1], by decide, by decide⟩ (by decide)
  ⟨⟨g.1, g.2.2.2.1, g.2.2.2.2.2.2.2.2.1 (by decide) (by decide)⟩, r⟩

/-- C20, the code at the failing input: the identity generated and saved for
the address `localhost` loads again, is not expired, and does not pass the
reuse check of a second call with the address `localhost`: the second call
generates a new key and certificate and overwrites the files. -/
theorem generateSelfSignedCert_localhost_restart :
    generateSelfSignedCert (certEnvWith 1) emptyDisk "localhost" 1000 1000 1000 =
        (localhostDisk, ⟨[⟨certTemplate plainLib "localhost" 1000 1000, 1⟩], some 1⟩, none) ∧
      LoadX509KeyPair localhostDisk =
        some ⟨[⟨certTemplate plainLib "localhost" 1000 1000, 1⟩], some 1⟩ ∧
      (2000 : Time) < (certTemplate plainLib "localhost" 1000 1000).NotAfter ∧
      (generateSelfSignedCert (certEnvWith 2) localhostDisk "localhost" 2000 2000 2000).2.1 =
        ⟨[⟨certTemplate plainLib "localhost" 2000 2000, 2⟩], some 2⟩ ∧
      (generateSelfSignedCert (certEnvWith 2) localhostDisk "localhost" 2000 2000 2000).1 ≠
        localhostDisk := by
  decide

/-- The reuse check does pass for an address that is an IP address: the
identity generated and saved for `10.0.0.5` is returned by a second call with
`10.0.0.5` before not-after. -/
theorem generateSelfSignedCert_lan_restart :
    generateSelfSignedCert (certEnvWith 1) emptyDisk "10.0.0.5" 1000 1000 1000 =
        (lanDisk, ⟨[⟨certTemplate plainLib "10.0.0.5" 1000 1000, 1⟩], some 1⟩, none) ∧
      generateSelfSignedCert (certEnvWith 2) lanDisk "10.0.0.5" 2000 2000 2000 =
        (lanDisk, ⟨[⟨certTemplate plainLib "10.0.0.5" 1000 1000, 1⟩], some 1⟩, none) := by
  decide

/-! ## Configuration endpoint: the claims -/

theorem pairingState_paired_server (s : Server) (d : String) (now : Time)
    (h : (pairingState s d now).2.1 = true) : (pairingState s d now).1 = s := by
  rw [pairingState_eq] at h ⊢
  split_ifs at h ⊢
  rfl

/-- Past the two gates, `handleConfig` works on the server as it was. -/
theorem handleConfig_gated (lib : Lib) (s : Server) (r : Request) (body : Option ConfigBody)
    (now : Time) (hauth : isTokenAuthorized s r = true)
    (hpair : (pairingState s (deviceIDFromRequest r) now).2.1 = true) :
    handleConfig lib s r body now =
      if r.Method = MethodPost then
        match body with
        | none => (s, ⟨StatusBadRequest, ConfigReply.error "invalid request"⟩, none)
        | some body =>
          let s1 := if body.APIKey ≠ "" then { s with ai := SetAPIKey s.ai body.APIKey } else s
          let s2 :=
            if body.BaseURL ≠ "" then
              { s1 with ai := { s1.ai with baseURL := TrimRight body.BaseURL "/" } }
            else s1
          let s3 :=
            if body.Model ≠ "" then { s2 with ai := { s2.ai with model := body.Model } } else s2
          if body.LanIP ≠ "" then
            if EqualFold (TrimSpace body.LanIP) "auto" = true then
              saveAndReply { s3 with lanIPOverride := "" }
            else if lib.ParseIP (TrimSpace body.LanIP) = [] ∨
                To4 (lib.ParseIP (TrimSpace body.LanIP)) = [] then
              (s3, ⟨StatusBadRequest, ConfigReply.error "invalid lanIp"⟩, none)
            else saveAndReply { s3 with lanIPOverride := TrimSpace body.LanIP }
          else saveAndReply s3
      else
        (s, ⟨StatusOK, ConfigReply.current (jsonText (maskKey s.ai.apiKey)) s.ai.baseURL
          s.ai.model s.lanIPOverride (IsAvailable s.ai)⟩, none) := by
  have hs := pairingState_paired_server s (deviceIDFromRequest r) now hpair
  unfold handleConfig isClientPaired
  simp only [hauth, hpair, hs, Bool.not_true, Bool.false_eq_true, if_false]

theorem bytes_stars : bytes "****" = [42, 42, 42, 42] := by decide

theorem bytes_eq_nil_iff (k : String) : bytes k = [] ↔ k = "" := by
  constructor
  · intro h
    exact bytes_injective (h.trans (by decide : ([] : List Nat) = bytes ""))
  · intro h
    rw [h]
    decide

theorem maskKey_long (k : String) (h : 8 < (bytes k).length) :
    maskKey k = (bytes k).take 4 ++ bytes "****" ++ (bytes k).drop ((bytes k).length - 4) := by
  have hne : k ≠ "" := by
    intro h0
    rw [h0] at h
    exact absurd h (by decide)
  unfold maskKey
  simp only [hne, ne_eq, not_false_eq_true, if_true, gt_iff_lt, h]

theorem maskKey_short (k : String) (hne : k ≠ "") (h : (bytes k).length ≤ 8) :
    maskKey k = bytes "****" := by
  unfold maskKey
  simp only [hne, ne_eq, not_false_eq_true, if_true, gt_iff_lt, Nat.not_lt.mpr h, if_false]

/-- Decoding the encoding of a code point gives the code point back. -/
theorem DecodeRune_encode (c : Char) (rest : List Nat) :
    DecodeRune (utf8EncodeChar c ++ rest) = (c, (utf8EncodeChar c).length) := by
  have hc := char_toNat_lt c
  have hof : Char.ofNat c.toNat = c := Char.ofNat_toNat c
  by_cases h1 : c.toNat < 0x80
  · have henc : utf8EncodeChar c = [c.toNat] := by
      unfold utf8EncodeChar; simp only [h1, if_true]
    rw [henc]
    unfold DecodeRune
    simp only [List.singleton_append, List.getD_cons_zero, h1, if_true, hof, List.length_singleton]
  · by_cases h2 : c.toNat < 0x800
    · have henc : utf8EncodeChar c = [0xC0 + c.toNat / 64, 0x80 + c.toNat % 64] := by
        unfold utf8EncodeChar; simp only [h1, h2, if_true, if_false]
      have hb0 : ¬ (0xC0 + c.toNat / 64 < 0x80) := by omega
      have hs : (0xC0 ≤ 0xC0 + c.toNat / 64 ∧ 0xC0 + c.toNat / 64 < 0xE0) := by omega
      have hn : (0xC0 + c.toNat / 64 - 0xC0) * 64 + (0x80 + c.toNat % 64 - 0x80) = c.toNat := by
        omega
      rw [henc]
      unfold DecodeRune
      simp only [List.cons_append, List.nil_append, List.getD_cons_zero, List.getD_cons_succ, hb0, if_false, hs,
        and_self, if_true, hn, hof, henc, List.take, List.length_cons, List.length_nil]
      simp
    · by_cases h3 : c.toNat < 0x10000
      · have henc : utf8EncodeChar c =
            [0xE0 + c.toNat / 4096, 0x80 + c.toNat / 64 % 64, 0x80 + c.toNat % 64] := by
          unfold utf8EncodeChar; simp only [h1, h2, h3, if_true, if_false]
        have hb0 : ¬ (0xE0 + c.toNat / 4096 < 0x80) := by omega
        have hs2 : ¬ (0xC0 ≤ 0xE0 + c.toNat / 4096 ∧ 0xE0 + c.toNat / 4096 < 0xE0) := by omega
        have hs3 : (0xE0 ≤ 0xE0 + c.toNat / 4096 ∧ 0xE0 + c.toNat / 4096 < 0xF0) := by omega
        have hn : (0xE0 + c.toNat / 4096 - 0xE0) * 4096 + (0x80 + c.toNat / 64 % 64 - 0x80) * 64 +
            (0x80 + c.toNat % 64 - 0x80) = c.toNat := by omega
        rw [henc]
        unfold DecodeRune
        simp only [List.cons_append, List.nil_append, List.getD_cons_zero, List.getD_cons_succ,
          hb0, if_false, hs2, hs3, and_self, if_true, hn, hof, henc, List.take, List.length_cons,
          List.length_nil]
        simp [hof, henc]
      · have henc : utf8EncodeChar c =
            [0xF0 + c.toNat / 262144, 0x80 + c.toNat / 4096 % 64, 0x80 + c.toNat / 64 % 64,
              0x80 + c.toNat % 64] := by
          unfold utf8EncodeChar; simp only [h1, h2, h3, if_false]
        have hb0 : ¬ (0xF0 + c.toNat / 262144 < 0x80) := by omega
        have hs2 : ¬ (0xC0 ≤ 0xF0 + c.toNat / 262144 ∧ 0xF0 + c.toNat / 262144 < 0xE0) := by
          omega
        have hs3 : ¬ (0xE0 ≤ 0xF0 + c.toNat / 262144 ∧ 0xF0 + c.toNat / 262144 < 0xF0) := by
          omega
        have hs4 : (0xF0 ≤ 0xF0 + c.toNat / 262144 ∧ 0xF0 + c.toNat / 262144 < 0xF8) := by
          omega
        have hn : (0xF0 + c.toNat / 262144 - 0xF0) * 262144 +
            (0x80 + c.toNat / 4096 % 64 - 0x80) * 4096 +
            (0x80 + c.toNat / 64 % 64 - 0x80) * 64 + (0x80 + c.toNat % 64 - 0x80) = c.toNat := by
          omega
        rw [henc]
        unfold DecodeRune
        simp only [List.cons_append, List.nil_append, List.getD_cons_zero, List.getD_cons_succ,
          hb0, if_false, hs2, hs3, hs4, and_self, if_true, hn, hof, henc, List.take,
          List.length_cons, List.length_nil]
        simp [hof, henc]

theorem DecodeRune_size (b : List Nat) : 1 ≤ (DecodeRune b).2 := by
  unfold DecodeRune
  simp only
  split_ifs <;> simp

theorem validRunes_bytesOf (l : List Char) : ∀ fuel : Nat, (bytesOf l).length ≤ fuel →
    validRunes fuel (bytesOf l) = l := by
  induction l with
  | nil =>
    intro fuel _
    cases fuel <;> rfl
  | cons c cs ih =>
    intro fuel hf
    have hne := utf8EncodeChar_ne_nil c
    have hlen : 1 ≤ (utf8EncodeChar c).length := by
      cases h : utf8EncodeChar c with
      | nil => exact absurd h hne
      | cons a t => simp
    simp only [bytesOf, List.length_append] at hf
    cases fuel with
    | zero => omega
    | succ f =>
      have hd := DecodeRune_encode c (bytesOf cs)
      cases hb : utf8EncodeChar c ++ bytesOf cs with
      | nil =>
        have := congrArg List.length hb
        simp only [List.length_append, List.length_nil] at this
        omega
      | cons b0 rest =>
        simp only [bytesOf, hb, validRunes]
        rw [← hb, hd]
        simp only [List.drop_left]
        rw [ih f (by omega)]

/-- Text that is valid comes back from the JSON string unchanged. -/
theorem jsonText_bytes (s : String) : jsonText (bytes s) = s := by
  cases s with
  | mk l =>
    unfold jsonText bytes
    simp only
    rw [validRunes_bytesOf l _ (Nat.le_refl _)]

/-- The text read back has at most as many code points as there were bytes. -/
theorem validRunes_length (fuel : Nat) : ∀ b : List Nat, (validRunes fuel b).length ≤ b.length := by
  induction fuel with
  | zero => intro b; simp [validRunes]
  | succ f ih =>
    intro b
    cases b with
    | nil => simp [validRunes]
    | cons b0 rest =>
      simp only [validRunes, List.length_cons]
      have h1 := ih ((b0 :: rest).drop (DecodeRune (b0 :: rest)).2)
      have h2 := DecodeRune_size (b0 :: rest)
      simp only [List.length_drop, List.length_cons] at h1
      omega

theorem bytesOf_append (l m : List Char) : bytesOf (l ++ m) = bytesOf l ++ bytesOf m := by
  induction l with
  | nil => rfl
  | cons c cs ih =>
    show utf8EncodeChar c ++ bytesOf (cs ++ m) = (utf8EncodeChar c ++ bytesOf cs) ++ bytesOf m
    rw [ih, List.append_assoc]

theorem bytes_append (p q : String) : bytes (p ++ q) = bytes p ++ bytes q := by
  unfold bytes
  rw [String.data_append, bytesOf_append]

theorem maskKey_length (k : String) : (maskKey k).length ≤ 12 := by
  by_cases hne : k = ""
  · rw [hne]
    decide
  · by_cases hlen : 8 < (bytes k).length
    · rw [maskKey_long k hlen]
      simp only [List.length_append, List.length_take, List.length_drop, bytes_stars,
        List.length_cons, List.length_nil]
      omega
    · rw [maskKey_short k hne (Nat.le_of_not_lt hlen)]
      decide

theorem jsonText_maskKey_length (k : String) : (jsonText (maskKey k)).length ≤ 12 :=
  Nat.le_trans (validRunes_length _ _) (maskKey_length k)

/-- A key whose first four and last four bytes are whole characters is reported
as those ends around `****`. -/
theorem jsonText_maskKey_ends (p m q : String) (hp : (bytes p).length = 4)
    (hq : (bytes q).length = 4) (hm : m ≠ "") :
    jsonText (maskKey (p ++ m ++ q)) = p ++ "****" ++ q := by
  have hmlen : 1 ≤ (bytes m).length := by
    cases hb : bytes m with
    | nil => exact absurd ((bytes_eq_nil_iff m).mp hb) hm
    | cons a t => simp
  have hb : bytes (p ++ m ++ q) = bytes p ++ bytes m ++ bytes q := by
    rw [bytes_append, bytes_append]
  have hlen : 8 < (bytes (p ++ m ++ q)).length := by
    rw [hb]
    simp only [List.length_append]
    omega
  rw [maskKey_long _ hlen, hb]
  have h1 : (bytes p ++ bytes m ++ bytes q).take 4 = bytes p := by
    rw [List.append_assoc, ← hp, List.take_left]
  have h2 : (bytes p ++ bytes m ++ bytes q).drop ((bytes p ++ bytes m ++ bytes q).length - 4) =
      bytes q := by
    have : (bytes p ++ bytes m ++ bytes q).length - 4 = (bytes p ++ bytes m).length := by
      simp only [List.length_append]
      omega
    rw [this, List.drop_left]
  rw [h1, h2, ← bytes_append, ← bytes_append, jsonText_bytes]

theorem string_append_cancel (p q m n : String) (h : p ++ m ++ q = p ++ n ++ q) : m = n := by
  have hd := congrArg String.data h
  simp only [String.data_append] at hd
  have h1 := List.append_cancel_right hd
  have h2 := List.append_cancel_left h1
  exact String.ext h2

/-- C21, counterexample: for the stored key `abcd****wxyz` the GET answer
reports the key itself; and for the key `aééééz`, whose first and last 4 bytes
cut a character, what is reported is not its first 4 bytes, `****` and its
last 4 bytes: each cut byte is replaced by U+FFFD, which makes 16 bytes. -/
theorem handleConfig_mask_equals_key :
    (handleConfig plainLib
        { keyedServer with ai := ⟨"abcd****wxyz", "https://api.deepseek.com", "deepseek-chat"⟩ }
        configRequest none 5000).2.1 =
        ⟨StatusOK, ConfigReply.current "abcd****wxyz" "https://api.deepseek.com"
          "deepseek-chat" "" true⟩ ∧
      jsonText (maskKey "****") = "****" ∧
      jsonText (maskKey "aééééz") = "aé�****�éz" ∧
      (bytes (jsonText (maskKey "aééééz"))).length = 16 ∧
      bytes (jsonText (maskKey "aééééz")) ≠
        (bytes "aééééz").take 4 ++ bytes "****" ++ (bytes "aééééz").drop 6 ∧
      jsonText (maskKey "aé�****�éz") = "aé�****�éz" := by
  decide

/-- C21, amended: the GET answer of `handleConfig` carries the masked key as
JSON text: the empty key is reported as empty; a non-empty key of at most 8
bytes is reported as `****`, which is the key only when the key is `****`; a
longer key is reported as the JSON text of its first 4 bytes, then `****`,
then its last 4 bytes, where every byte cut off from its character is replaced
by U+FFFD, so that two longer keys with the same first 4 and last 4 bytes are
reported alike; when the first 4 and the last 4 bytes are whole characters
the reported value is those ends around `****`, and it is the key only when
the hidden middle is itself `****`; the reported value has at most 12
characters, so a key of more than 12 characters is never reported in full. -/
theorem handleConfig_masks_key (lib : Lib) (s : Server) (r : Request)
    (body : Option ConfigBody) (now : Time) (hauth : isTokenAuthorized s r = true)
    (hpair : (pairingState s (deviceIDFromRequest r) now).2.1 = true)
    (hget : r.Method ≠ MethodPost) :
    handleConfig lib s r body now =
        (s, ⟨StatusOK, ConfigReply.current (jsonText (maskKey s.ai.apiKey)) s.ai.baseURL
          s.ai.model s.lanIPOverride (IsAvailable s.ai)⟩, none) ∧
      jsonText (maskKey "") = "" ∧
      (∀ k : String, k ≠ "" → (bytes k).length ≤ 8 →
        jsonText (maskKey k) = "****" ∧ (jsonText (maskKey k) = k ↔ k = "****")) ∧
      (∀ k : String, 8 < (bytes k).length →
        jsonText (maskKey k) =
          jsonText ((bytes k).take 4 ++ bytes "****" ++
            (bytes k).drop ((bytes k).length - 4))) ∧
      (∀ k k2 : String, 8 < (bytes k).length → 8 < (bytes k2).length →
        (bytes k).take 4 = (bytes k2).take 4 →
        (bytes k).drop ((bytes k).length - 4) = (bytes k2).drop ((bytes k2).length - 4) →
        jsonText (maskKey k) = jsonText (maskKey k2)) ∧
      (∀ p m q : String, (bytes p).length = 4 → (bytes q).length = 4 → m ≠ "" →
        jsonText (maskKey (p ++ m ++ q)) = p ++ "****" ++ q ∧
          (jsonText (maskKey (p ++ m ++ q)) = p ++ m ++ q ↔ m = "****")) ∧
      (∀ k : String, (jsonText (maskKey k)).length ≤ 12) ∧
      (∀ k : String, 12 < k.length → jsonText (maskKey k) ≠ k) := by
  refine ⟨?_, by decide, ?_, ?_, ?_, ?_, jsonText_maskKey_length, ?_⟩
  · rw [handleConfig_gated lib s r body now hauth hpair, if_neg hget]
  · intro k hne hlen
    have h : jsonText (maskKey k) = "****" := by
      rw [maskKey_short k hne hlen, jsonText_bytes]
    exact ⟨h, by rw [h]; exact eq_comm⟩
  · intro k hlen
    rw [maskKey_long k hlen]
  · intro k k2 h1 h2 h3 h4
    rw [maskKey_long k h1, maskKey_long k2 h2, h3, h4]
  · intro p m q hp hq hm
    have h := jsonText_maskKey_ends p m q hp hq hm
    refine ⟨h, ?_⟩
    rw [h]
    constructor
    · intro heq
      exact (string_append_cancel p q "****" m heq).symm
    · intro heq
      rw [heq]
  · intro k hk heq
    have h := jsonText_maskKey_length k
    rw [heq] at h
    exact absurd hk (Nat.not_lt.mpr h)

theorem handleConfig_masks_key_witness :
    handleConfig plainLib keyedServer configRequest none 5000 =
        (keyedServer, ⟨StatusOK, ConfigReply.current (jsonText (maskKey "sk-old-key-0001"))
          "https://api.deepseek.com" "deepseek-chat" "" true⟩, none) ∧
      jsonText (maskKey ("sk-o" ++ "ld-key-" ++ "0001")) = "sk-o" ++ "****" ++ "0001" :=
  have h := handleConfig_masks_key plainLib keyedServer configRequest none 5000 (by decide)
    (by decide) (by decide)
  ⟨h.1, (h.2.2.2.2.2.1 "sk-o" "ld-key-" "0001" (by decide) (by decide) (by decide)).1⟩

/-- C22, the code at the failing input: a POST whose `lanIp` is neither `auto`
nor an address, and which also carries a key, a base URL and a model, is
answered 400 and nothing is saved, yet the key, the base URL and the model of
the server are the new ones. -/
theorem handleConfig_rejected_post_changes_config :
    keyedServer.ai = ⟨"sk-old-key-0001", "https://api.deepseek.com", "deepseek-chat"⟩ ∧
      handleConfig plainLib keyedServer configPost (some badLanIPBody) 5000 =
        ({ keyedServer with ai := ⟨"sk-new", "https://example.org", "other-model"⟩ },
          ⟨StatusBadRequest, ConfigReply.error "invalid lanIp"⟩, none) := by
  decide

/-- What does hold of the 400 answers: an undecodable body leaves the server as
it was, and so does a bad `lanIp` in a body whose key, base URL and model are
empty. -/
theorem handleConfig_rejected_unchanged (lib : Lib) (s : Server) (r : Request) (now : Time)
    (hauth : isTokenAuthorized s r = true)
    (hpair : (pairingState s (deviceIDFromRequest r) now).2.1 = true)
    (hpost : r.Method = MethodPost) :
    handleConfig lib s r none now =
        (s, ⟨StatusBadRequest, ConfigReply.error "invalid request"⟩, none) ∧
      (∀ lanIp : String, lanIp ≠ "" → EqualFold (TrimSpace lanIp) "auto" = false →
        (lib.ParseIP (TrimSpace lanIp) = [] ∨ To4 (lib.ParseIP (TrimSpace lanIp)) = []) →
        handleConfig lib s r (some ⟨"", "", "", lanIp⟩) now =
          (s, ⟨StatusBadRequest, ConfigReply.error "invalid lanIp"⟩, none)) := by
  refine ⟨?_, ?_⟩
  · rw [handleConfig_gated lib s r none now hauth hpair, if_pos hpost]
  · intro lanIp hne hauto hbad
    rw [handleConfig_gated lib s r _ now hauth hpair, if_pos hpost]
    simp only [ne_eq, not_true_eq_false, if_false, hne, not_false_eq_true, if_true, hauto,
      Bool.false_eq_true, hbad]

end GinkgoTalk
